import Mathlib

/-!
# Generated Node controller and DynamicSchema lifecycle adapter

A shallow embedding of
`vendor/github.com/rancher/types/apis/management.cattle.io/v3/zz_generated_node_controller.go`
and `zz_generated_dynamic_schema_lifecycle_adapter.go`.

* A Go pointer `*T` is an `Option T` (`none` is the nil pointer).
* A Go interface value (`interface{}`, `runtime.Object`) is an `Iface`: the untyped nil, a
  value of dynamic type `*T` (whose pointer may itself be nil), or a value of another type.
* A Go `error` is an `Option (GoError E)`; `none` is the nil error.
* A function body that can fail a type assertion yields an `Outcome`.
* Callbacks supplied by the user (handlers, lifecycles) are state transformers over a
  `World`, which also logs every invocation made.
-/

set_option autoImplicit false

namespace Rancher

/-! ## Go values -/

/-- Result of running a Go function body: it returns a value, or it panics. -/
inductive Outcome (α : Type) where
  | returns (a : α)
  | panics

/-- A Go interface value as seen from code that knows the pointer type `*T`: the untyped nil
interface, a value of dynamic type `*T` (the pointer may be nil), or a value of some other
dynamic type. -/
inductive Iface (T O : Type) where
  | nil
  | ptr (p : Option T)
  | other (o : O)

/-- The comma-ok type assertion `v, ok := obj.(*T)`. -/
def Iface.assertOk {T O : Type} : Iface T O → Option T × Bool
  | .ptr p => (p, true)
  | _ => (none, false)

/-- The unchecked type assertion `obj.(*T)`: `none` stands for the run-time panic. -/
def Iface.assert {T O : Type} : Iface T O → Option (Option T)
  | .ptr p => some p
  | _ => none

/-- The comparison `obj == nil` on an interface value. -/
def Iface.isNil {T O : Type} : Iface T O → Bool
  | .nil => true
  | _ => false

/-- The type `schema.GroupResource`. -/
structure GroupResource where
  Group : String
  Resource : String
  deriving DecidableEq

/-- The type `schema.GroupVersionKind`. -/
structure GroupVersionKind where
  Group : String
  Version : String
  Kind : String
  deriving DecidableEq

/-- Non-nil Go error values: the NotFound status error, or any other error value. -/
inductive GoError (E : Type) where
  | notFound (qualifiedResource : GroupResource) (name : String)
  | other (e : E)

/-- Modelled from the spec: `errors.NewNotFound` of k8s apimachinery is not among the sources;
it builds the distinct `NotFound` error kind (spec 4.5 and 7) for a resource and a name, and
the value it returns is never the nil error. -/
def NewNotFound {E : Type} (qualifiedResource : GroupResource) (name : String) : GoError E :=
  .notFound qualifiedResource name

/-! ## Worlds: user callbacks and the log of their invocations -/

/-- State threaded through user callbacks, with the log of the calls made so far. -/
structure World (σ C : Type) where
  state : σ
  calls : List C

/-! ## zz_generated_node_controller.go -/

/-- The package variable `NodeGroupVersionKind`; the constants `GroupName` and `Version` are
declared outside the sources and are taken as arguments. -/
def NodeGroupVersionKind (GroupName Version : String) : GroupVersionKind :=
  { Version := Version, Group := GroupName, Kind := "Node" }

/-- The type `NodeHandlerFunc`: `func(key string, obj *Node) (*Node, error)`, a callback with
its own state `σ`. -/
abbrev NodeHandlerFunc (Node E σ : Type) :=
  String → Option Node → σ → (Option Node × Option (GoError E)) × σ

/-- The store behind `Informer().GetIndexer()`: `GetByKey(key)` yields `(item, exists, err)`. -/
structure Indexer (Node O E : Type) where
  GetByKey : String → Iface Node O × Bool × Option (GoError E)

/-- The struct `nodeController`, reduced to what the lister reads from its embedded
`GenericController`: the indexer of its informer. -/
structure nodeController (Node O E : Type) where
  indexer : Indexer Node O E

/-- The struct `nodeLister`. -/
structure nodeLister (Node O E : Type) where
  controller : nodeController Node O E

/-- The key computed in the first lines of `nodeLister.Get`. -/
def nodeLister.key (ns name : String) : String :=
  if ns ≠ "" then ns ++ "/" ++ name else name

/-- The precondition on a (namespace, name) pair under which keys are read back without
ambiguity: the namespace holds no "/", and neither does a name used with the empty
namespace. -/
def SlashFree (ns name : String) : Prop :=
  '/' ∉ ns.data ∧ (ns = "" → '/' ∉ name.data)

instance (ns name : String) : Decidable (SlashFree ns name) :=
  inferInstanceAs (Decidable (_ ∧ _))

/-- The method `nodeLister.Get`. -/
def nodeLister.Get {Node O E : Type} (GroupName Version : String) (l : nodeLister Node O E)
    (ns name : String) : Outcome (Option Node × Option (GoError E)) :=
  let key := nodeLister.key ns name
  match l.controller.indexer.GetByKey key with
  | (obj, found, err) =>
    if err.isSome then
      .returns (none, err)
    else if !found then
      .returns (none, some (NewNotFound
        { Group := (NodeGroupVersionKind GroupName Version).Group, Resource := "node" } key))
    else
      match obj.assert with
      | some p => .returns (p, none)
      | none => .panics

/-- One invocation of a `NodeHandlerFunc`, as recorded in the log. -/
structure HandlerCall (Node : Type) where
  key : String
  obj : Option Node

/-- The call `handler(key, obj)`: runs the callback on the world and logs the invocation. -/
def callHandler {Node E σ : Type} (handler : NodeHandlerFunc Node E σ) (key : String)
    (obj : Option Node) (w : World σ (HandlerCall Node)) :
    (Option Node × Option (GoError E)) × World σ (HandlerCall Node) :=
  let r := handler key obj w.state
  (r.1, { state := r.2, calls := w.calls ++ [{ key := key, obj := obj }] })

/-- The conversion of a `(*Node, error)` result to `(interface{}, error)` at a `return`. -/
def toIface {Node O E σ C : Type} (r : (Option Node × Option (GoError E)) × World σ C) :
    (Iface Node O × Option (GoError E)) × World σ C :=
  ((.ptr r.1.1, r.1.2), r.2)

/-- The function literal that `nodeController.AddHandler` hands to
`GenericController.AddHandler`. -/
def nodeController.AddHandler.func {Node O E σ : Type} (handler : NodeHandlerFunc Node E σ)
    (key : String) (obj : Iface Node O) (w : World σ (HandlerCall Node)) :
    (Iface Node O × Option (GoError E)) × World σ (HandlerCall Node) :=
  if obj.isNil then
    toIface (callHandler handler key none w)
  else
    match obj.assertOk with
    | (v, true) => toIface (callHandler handler key v w)
    | (_, false) => ((.nil, none), w)

/-- The function literal that `nodeController.AddClusterScopedHandler` hands to
`GenericController.AddHandler`; `controller.ObjectInCluster` is declared outside the sources
and is taken as an argument. -/
def nodeController.AddClusterScopedHandler.func {Node O E σ : Type}
    (ObjectInCluster : String → Iface Node O → Bool) (cluster : String)
    (handler : NodeHandlerFunc Node E σ)
    (key : String) (obj : Iface Node O) (w : World σ (HandlerCall Node)) :
    (Iface Node O × Option (GoError E)) × World σ (HandlerCall Node) :=
  if obj.isNil then
    toIface (callHandler handler key none w)
  else
    match obj.assertOk with
    | (v, true) =>
      if ObjectInCluster cluster obj then toIface (callHandler handler key v w)
      else ((.nil, none), w)
    | (_, false) => ((.nil, none), w)

/-! ## zz_generated_dynamic_schema_lifecycle_adapter.go -/

/-- The interface `DynamicSchemaLifecycle`: three callbacks over `*DynamicSchema` with their
own state `σ`. -/
structure DynamicSchemaLifecycle (DS E σ : Type) where
  Create : Option DS → σ → (Option DS × Option (GoError E)) × σ
  Remove : Option DS → σ → (Option DS × Option (GoError E)) × σ
  Updated : Option DS → σ → (Option DS × Option (GoError E)) × σ

/-- The three methods of a lifecycle. -/
inductive Method where
  | Create
  | Remove
  | Updated
  deriving DecidableEq

/-- One invocation of a lifecycle method, as recorded in the log: the method, its argument, and
whether the error it returned was nil. -/
structure LifecycleCall (DS : Type) where
  method : Method
  obj : Option DS
  ok : Bool

/-- A method call `w.lifecycle.M(obj)`: runs the callback on the world and logs the call. -/
def callLifecycle {DS E σ : Type} (m : Method)
    (f : Option DS → σ → (Option DS × Option (GoError E)) × σ) (obj : Option DS)
    (w : World σ (LifecycleCall DS)) :
    (Option DS × Option (GoError E)) × World σ (LifecycleCall DS) :=
  let r := f obj w.state
  (r.1, { state := r.2,
          calls := w.calls ++ [{ method := m, obj := obj, ok := r.1.2.isNone }] })

/-- The struct `dynamicSchemaLifecycleAdapter`. -/
structure dynamicSchemaLifecycleAdapter (DS E σ : Type) where
  lifecycle : DynamicSchemaLifecycle DS E σ

/-- The tail shared by the three adapter methods:
`if o == nil { return nil, err }; return o, err`, with `o` of type `*DynamicSchema` and the
result of type `runtime.Object`. -/
def dynamicSchemaLifecycleAdapter.result {DS O E σ : Type}
    (r : (Option DS × Option (GoError E)) × World σ (LifecycleCall DS)) :
    (Iface DS O × Option (GoError E)) × World σ (LifecycleCall DS) :=
  match r.1.1 with
  | none => ((.nil, r.1.2), r.2)
  | some o => ((.ptr (some o), r.1.2), r.2)

/-- The method `dynamicSchemaLifecycleAdapter.Create`. -/
def dynamicSchemaLifecycleAdapter.Create {DS O E σ : Type}
    (w : dynamicSchemaLifecycleAdapter DS E σ) (obj : Iface DS O)
    (world : World σ (LifecycleCall DS)) :
    Outcome ((Iface DS O × Option (GoError E)) × World σ (LifecycleCall DS)) :=
  match obj.assert with
  | none => .panics
  | some p =>
    .returns (dynamicSchemaLifecycleAdapter.result
      (callLifecycle .Create w.lifecycle.Create p world))

/-- The method `dynamicSchemaLifecycleAdapter.Finalize`. -/
def dynamicSchemaLifecycleAdapter.Finalize {DS O E σ : Type}
    (w : dynamicSchemaLifecycleAdapter DS E σ) (obj : Iface DS O)
    (world : World σ (LifecycleCall DS)) :
    Outcome ((Iface DS O × Option (GoError E)) × World σ (LifecycleCall DS)) :=
  match obj.assert with
  | none => .panics
  | some p =>
    .returns (dynamicSchemaLifecycleAdapter.result
      (callLifecycle .Remove w.lifecycle.Remove p world))

/-- The method `dynamicSchemaLifecycleAdapter.Updated`. -/
def dynamicSchemaLifecycleAdapter.Updated {DS O E σ : Type}
    (w : dynamicSchemaLifecycleAdapter DS E σ) (obj : Iface DS O)
    (world : World σ (LifecycleCall DS)) :
    Outcome ((Iface DS O × Option (GoError E)) × World σ (LifecycleCall DS)) :=
  match obj.assert with
  | none => .panics
  | some p =>
    .returns (dynamicSchemaLifecycleAdapter.result
      (callLifecycle .Updated w.lifecycle.Updated p world))

/-- The type of the function returned by `lifecycle.NewObjectLifecycleAdapter`:
`func(key string, obj interface{}) (interface{}, error)`, acting on the state `Ω` that
holds the backing store and the world of the lifecycle. -/
abbrev SyncFn (DS O E Ω : Type) :=
  String → Iface DS O → Ω → Outcome ((Iface DS O × Option (GoError E)) × Ω)

/-- The function `NewDynamicSchemaLifecycleAdapter`. The engine
`lifecycle.NewObjectLifecycleAdapter` is declared outside the sources and is taken as an
argument; the object client of `client` is part of the state `Ω` the engine acts on. -/
def NewDynamicSchemaLifecycleAdapter {DS O E σ Ω : Type}
    (NewObjectLifecycleAdapter :
      String → Bool → dynamicSchemaLifecycleAdapter DS E σ → SyncFn DS O E Ω)
    (name : String) (clusterScoped : Bool) (l : DynamicSchemaLifecycle DS E σ) :
    String → Option DS → Ω → Outcome ((Option DS × Option (GoError E)) × Ω) :=
  let adapter : dynamicSchemaLifecycleAdapter DS E σ := { lifecycle := l }
  let syncFn := NewObjectLifecycleAdapter name clusterScoped adapter
  fun key obj ω =>
    match syncFn key (.ptr obj) ω with
    | .panics => .panics
    | .returns ((newObj, err), ω1) =>
      match newObj.assertOk with
      | (o, true) => .returns ((o, err), ω1)
      | (_, false) => .returns ((none, err), ω1)

/-! ## The lifecycle engine, from the specification -/

/-- Modelled from the spec: the Resource Object of spec 3, which carries a finalizer list and
may be marked for deletion by the backing store; the remaining fields are its status. The
declaration of `DynamicSchema` is not among the sources. -/
structure Resource (S : Type) where
  deletionTimestamp : Bool
  finalizers : List String
  status : S

/-- Modelled from the spec: the state the engine acts on for one key, which the sources do not
declare. It holds the backing store copy of the object (`none` once it is gone), whether the
object has been observed before (spec 4.3, first observation), the answers of the backing
store to the update calls still to come (spec 6 and 7: an update can fail with `Conflict` or
a transient error; `none` accepts the update, and so does an exhausted list), and the world of
the lifecycle. -/
structure EngineState (S E σ : Type) where
  stored : Option (Resource S)
  observed : Bool
  updates : List (Option (GoError E))
  world : World σ (LifecycleCall (Resource S))

/-- Modelled from the spec: the update call of the backing store client (spec 6), which is not
among the sources. It returns the error of the call and the state it leaves: an accepted
update stores the object it is given, a failed one stores nothing. -/
def EngineState.update {S E σ : Type} (c : EngineState S E σ) (new : Resource S) :
    Option (GoError E) × EngineState S E σ :=
  match c.updates with
  | [] => (none, { c with stored := some new })
  | none :: rest => (none, { c with stored := some new, updates := rest })
  | some err :: rest => (some err, { c with updates := rest })

/-- Modelled from the spec: the end of the create and update path of spec 4.3, which is not
among the sources: a non-nil object returned by the handler is persisted back, as it is, by
an update call; the error returned is the one of the handler, or else the one of the
update. -/
def EngineState.persist {S E σ : Type} (c : EngineState S E σ)
    (o : Iface (Resource S) Empty) (err : Option (GoError E)) :
    Outcome ((Iface (Resource S) Empty × Option (GoError E)) × EngineState S E σ) :=
  match o with
  | .ptr (some new) =>
    .returns ((o, match err with
                  | some e => some e
                  | none => (c.update new).1), (c.update new).2)
  | _ => .returns ((o, err), c)

/-- Modelled from the spec: `lifecycle.NewObjectLifecycleAdapter` of rancher/norman is not among
the sources. Spec 4.3: an object that has disappeared is skipped silently; an object marked
for deletion while the token is present has `Remove` invoked through the adapter, and on
success the token is removed by an update call, while on an error the token is not removed
and the error is returned for the retry; otherwise `Create` runs on the first observation,
after the token is added by an update call (spec 3), and `Updated` on every later one, and a
non-nil object returned by the handler is persisted by an update call. An update call that
fails returns its error for the retry (spec 7). The token is `token name clusterScoped`. -/
def NewObjectLifecycleAdapter {S E σ : Type} (token : String → Bool → String)
    (name : String) (clusterScoped : Bool)
    (adapter : dynamicSchemaLifecycleAdapter (Resource S) E σ) :
    SyncFn (Resource S) Empty E (EngineState S E σ) :=
  fun _key obj c =>
    match obj with
    | .ptr (some r) =>
      if r.deletionTimestamp then
        if token name clusterScoped ∈ r.finalizers then
          match adapter.Finalize (O := Empty) obj c.world with
          | .panics => .panics
          | .returns ((_, some err), w) => .returns ((.nil, some err), { c with world := w })
          | .returns ((_, none), w) =>
            .returns ((.nil,
                (({ c with world := w } : EngineState S E σ).update
                  { r with
                    finalizers := r.finalizers.filter (· ≠ token name clusterScoped) }).1),
              (({ c with world := w } : EngineState S E σ).update
                { r with
                  finalizers := r.finalizers.filter (· ≠ token name clusterScoped) }).2)
        else
          .returns ((.nil, none), c)
      else if !c.observed then
        match (c.update { r with finalizers := token name clusterScoped :: r.finalizers }).1 with
        | some err =>
          .returns ((.nil, some err),
            (c.update { r with finalizers := token name clusterScoped :: r.finalizers }).2)
        | none =>
          match adapter.Create (O := Empty)
              (.ptr (some { r with finalizers := token name clusterScoped :: r.finalizers }))
              c.world with
          | .panics => .panics
          | .returns ((o, err), w) =>
            EngineState.persist
              { (c.update { r with finalizers := token name clusterScoped :: r.finalizers }).2
                with world := w, observed := true } o err
      else
        match adapter.Updated (O := Empty) obj c.world with
        | .panics => .panics
        | .returns ((o, err), w) => EngineState.persist { c with world := w } o err
    | _ => .returns ((.nil, none), c)

/-- Modelled from the spec: what can happen to the object of one key (spec 2 and 4.3): the
dispatcher syncs it, the backing store marks it for deletion, the backing store purges it. -/
inductive Event where
  | sync
  | delete
  | purge
  deriving DecidableEq

/-- Modelled from the spec: the data flow of spec 2 and 4.3 for one key, which the sources do
not hold. `sync` is the dispatcher looking the object up and, when it is still there,
invoking the handler `h`; `delete` is the backing store marking the object for deletion;
`purge` is the backing store deleting a marked object whose finalizer set is empty. -/
def EngineState.step {S E σ : Type}
    (h : String → Option (Resource S) → EngineState S E σ →
      Outcome ((Option (Resource S) × Option (GoError E)) × EngineState S E σ))
    (key : String) (c : EngineState S E σ) : Event → Outcome (EngineState S E σ)
  | .sync =>
    match c.stored with
    | none => .returns c
    | some r =>
      match h key (some r) c with
      | .panics => .panics
      | .returns (_, c1) => .returns c1
  | .delete =>
    .returns { c with stored := c.stored.map fun r => { r with deletionTimestamp := true } }
  | .purge =>
    match c.stored with
    | some r =>
      if r.deletionTimestamp && r.finalizers.isEmpty then .returns { c with stored := none }
      else .returns c
    | none => .returns c

/-- Modelled from the spec: the states passed through while a sequence of events is processed
one after the other (spec 4.2: one worker per key at a time), the first state included. -/
def EngineState.trace {S E σ : Type}
    (h : String → Option (Resource S) → EngineState S E σ →
      Outcome ((Option (Resource S) × Option (GoError E)) × EngineState S E σ))
    (key : String) : EngineState S E σ → List Event → Outcome (List (EngineState S E σ))
  | c, [] => .returns [c]
  | c, e :: es =>
    match c.step h key e with
    | .panics => .panics
    | .returns c1 =>
      match EngineState.trace h key c1 es with
      | .panics => .panics
      | .returns tr => .returns (c :: tr)

/-- Whether the stored object carries the token. -/
def EngineState.hasToken {S E σ : Type} (tok : String) (c : EngineState S E σ) : Bool :=
  match c.stored with
  | some r => decide (tok ∈ r.finalizers)
  | none => false

/-- Whether somewhere along the states the token is taken off the object: it is on the
object in one state and no longer in the next. -/
def tokenRemoved {S E σ : Type} (tok : String) : List (EngineState S E σ) → Bool
  | a :: b :: rest => (a.hasToken tok && !b.hasToken tok) || tokenRemoved tok (b :: rest)
  | _ => false

/-- Whether the log holds a call of `Remove` that returned a nil error. -/
def removeSucceeded {DS : Type} (calls : List (LifecycleCall DS)) : Bool :=
  calls.any fun c => decide (c.method = Method.Remove) && c.ok

/-- A lifecycle keeps the token: whenever `Create` or `Updated` is given an object that
carries the token and returns a non-nil object, the returned object carries it too. -/
def KeepsToken {S E σ : Type} (tok : String) (l : DynamicSchemaLifecycle (Resource S) E σ) :
    Prop :=
  ∀ (r o : Resource S) (s : σ), tok ∈ r.finalizers →
    ((l.Create (some r) s).1.1 = some o → tok ∈ o.finalizers) ∧
      ((l.Updated (some r) s).1.1 = some o → tok ∈ o.finalizers)

/-! ## The shared Client: controllers per namespace -/

/-- What `GenericController.AddHandler` is given: the handler name, the cluster of a
cluster-scoped handler, and the name of the lifecycle adapter when the handler was built by
`NewNodeLifecycleAdapter`. -/
structure Registration where
  name : String
  cluster : Option String
  lifecycle : Option String
  deriving DecidableEq

/-- The fields of the struct `Client` that the node client uses. A controller is identified
by the address of its `nodeController`. -/
structure Client where
  nodeControllers : String → Option Nat
  starters : List Nat

/-- The program state around a `Client`: the client, the next address the allocator hands
out, and for every controller the handlers registered on its `GenericController`. -/
structure State where
  client : Client
  next : Nat
  handlers : Nat → List Registration

/-- The struct `nodeClient`, reduced to its namespace; its `client` is the one of the
state. -/
structure nodeClient where
  ns : String

/-- The method `nodeClient.Controller`: returns the controller and the state it leaves.
`&nodeController{...}` takes the next free address. -/
def nodeClient.Controller (s : nodeClient) (st : State) : Nat × State :=
  match st.client.nodeControllers s.ns with
  | some c => (c, st)
  | none =>
    let c := st.next
    (c, { client :=
            { nodeControllers := Function.update st.client.nodeControllers s.ns (some c)
              starters := st.client.starters ++ [c] }
          next := st.next + 1
          handlers := st.handlers })

/-- The effect of `GenericController.AddHandler` on the controller at address `c`. -/
def GenericController.AddHandler (c : Nat) (reg : Registration) (st : State) : State :=
  { st with handlers := Function.update st.handlers c (st.handlers c ++ [reg]) }

/-- The method `nodeClient.AddHandler`. -/
def nodeClient.AddHandler (s : nodeClient) (name : String) (st : State) : State :=
  let r := s.Controller st
  GenericController.AddHandler r.1 { name := name, cluster := none, lifecycle := none } r.2

/-- The method `nodeClient.AddLifecycle`. -/
def nodeClient.AddLifecycle (s : nodeClient) (name : String) (st : State) : State :=
  let r := s.Controller st
  GenericController.AddHandler r.1 { name := name, cluster := none, lifecycle := some name } r.2

/-- The method `nodeClient.AddClusterScopedHandler`. -/
def nodeClient.AddClusterScopedHandler (s : nodeClient) (name clusterName : String)
    (st : State) : State :=
  let r := s.Controller st
  GenericController.AddHandler r.1
    { name := name, cluster := some clusterName, lifecycle := none } r.2

/-- The method `nodeClient.AddClusterScopedLifecycle`. -/
def nodeClient.AddClusterScopedLifecycle (s : nodeClient) (name clusterName : String)
    (st : State) : State :=
  let r := s.Controller st
  GenericController.AddHandler r.1
    { name := name, cluster := some clusterName,
      lifecycle := some (name ++ "_" ++ clusterName) } r.2

/-- A call on some node client of the shared `Client`. -/
inductive Op where
  | Controller (ns : String)
  | AddHandler (ns name : String)
  | AddLifecycle (ns name : String)
  | AddClusterScopedHandler (ns name clusterName : String)
  | AddClusterScopedLifecycle (ns name clusterName : String)
  deriving DecidableEq

/-- The namespace of the node client a call is made on. -/
def Op.ns : Op → String
  | .Controller ns => ns
  | .AddHandler ns _ => ns
  | .AddLifecycle ns _ => ns
  | .AddClusterScopedHandler ns _ _ => ns
  | .AddClusterScopedLifecycle ns _ _ => ns

/-- The state a call leaves. -/
def Op.run : Op → State → State
  | .Controller ns, st => (nodeClient.Controller { ns := ns } st).2
  | .AddHandler ns name, st => nodeClient.AddHandler { ns := ns } name st
  | .AddLifecycle ns name, st => nodeClient.AddLifecycle { ns := ns } name st
  | .AddClusterScopedHandler ns name cl, st =>
    nodeClient.AddClusterScopedHandler { ns := ns } name cl st
  | .AddClusterScopedLifecycle ns name cl, st =>
    nodeClient.AddClusterScopedLifecycle { ns := ns } name cl st

/-- The state a sequence of calls leaves. -/
def runOps (ops : List Op) (st : State) : State :=
  ops.foldl (fun acc op => op.run acc) st

/-- The registration an `Add` call hands to the controller; `Controller` itself registers
nothing. -/
def Op.registration : Op → Option Registration
  | .Controller _ => none
  | .AddHandler _ name => some { name := name, cluster := none, lifecycle := none }
  | .AddLifecycle _ name => some { name := name, cluster := none, lifecycle := some name }
  | .AddClusterScopedHandler _ name cl =>
    some { name := name, cluster := some cl, lifecycle := none }
  | .AddClusterScopedLifecycle _ name cl =>
    some { name := name, cluster := some cl, lifecycle := some (name ++ "_" ++ cl) }

/-- A freshly made `Client`: no controllers, no starters, nothing allocated. -/
def State.empty : State :=
  { client := { nodeControllers := fun _ => none, starters := [] }
    next := 0
    handlers := fun _ => [] }

/-- States the allocator can have produced: `starters` lists no address twice, every address
it lists lies below the next free one, and every controller of the map is listed. -/
def State.WellFormed (st : State) : Prop :=
  st.client.starters.Nodup ∧ (∀ a ∈ st.client.starters, a < st.next) ∧
    ∀ ns c, st.client.nodeControllers ns = some c → c ∈ st.client.starters

/-! ## Examples -/

/-- A lister over an empty store: every lookup succeeds and reports the key absent. -/
def emptyLister : nodeLister String Unit String :=
  { controller := { indexer := { GetByKey := fun _ => (.nil, false, none) } } }

/-- A lister over a store that holds the node "node-a" under the key "c-1/n1". -/
def oneNodeLister : nodeLister String Unit String :=
  { controller := { indexer := { GetByKey := fun k =>
      if k = "c-1/n1" then (.ptr (some "node-a"), true, none) else (.nil, false, none) } } }

/-- A lister over a store whose every lookup fails with the error "closed". -/
def failingLister : nodeLister String Unit String :=
  { controller := { indexer := { GetByKey := fun _ =>
      (.nil, false, some (.other "closed")) } } }

/-- A lister over a store that holds, under every key, an item that is not a `*Node`. -/
def foreignLister : nodeLister String Unit String :=
  { controller := { indexer := { GetByKey := fun _ => (.other (), true, none) } } }

/-- A lifecycle whose `Remove` fails on its first call and succeeds afterwards; its state
counts the calls of `Remove`. `Create` and `Updated` return their object with the status set,
the finalizers as they were. -/
def retryLifecycle : DynamicSchemaLifecycle (Resource Nat) String Nat :=
  { Create := fun o n => ((o.map fun r => { r with status := 1 }, none), n)
    Remove := fun o n => if n = 0 then ((o, some (.other "busy")), n + 1) else ((o, none), n + 1)
    Updated := fun o n => ((o.map fun r => { r with status := 2 }, none), n) }

/-- A lifecycle whose `Updated` returns its object with the finalizer list emptied. -/
def stripLifecycle : DynamicSchemaLifecycle (Resource Nat) String Nat :=
  { Create := fun _ n => ((none, none), n)
    Remove := fun o n => ((o, none), n)
    Updated := fun o n => ((o.map fun r => { r with finalizers := [] }, none), n) }

/-- A lifecycle whose `Remove` always succeeds and whose `Create` and `Updated` return the nil
object. -/
def eagerLifecycle : DynamicSchemaLifecycle (Resource Nat) String Nat :=
  { Create := fun _ n => ((none, none), n)
    Remove := fun o n => ((o, none), n + 1)
    Updated := fun _ n => ((none, none), n) }

/-- The run of the handler built for a lifecycle under the name "cleanup", the token being
the name, on a fresh object, with the given answers to the update calls: whether the token
is taken off along the run, and whether the log at its end holds a successful `Remove`. -/
def exampleRun (l : DynamicSchemaLifecycle (Resource Nat) String Nat)
    (updates : List (Option (GoError String))) (evs : List Event) : Option (Bool × Bool) :=
  match EngineState.trace
      (NewDynamicSchemaLifecycleAdapter (O := Empty)
        (NewObjectLifecycleAdapter fun name _ => name) "cleanup" false l) "c-1/x"
      { stored := some { deletionTimestamp := false, finalizers := [], status := 0 }
        observed := false
        updates := updates
        world := { state := 0, calls := [] } } evs with
  | .panics => none
  | .returns tr =>
    some (tokenRemoved "cleanup" tr,
      match tr.getLast? with
      | some last => removeSucceeded last.world.calls
      | none => false)

/-! # Theorems -/

/-! ## The lister -/

/-- C1: when the lookup of the derived key succeeds and reports the key absent, `Get` returns
the nil `*Node` with the NotFound error for group `NodeGroupVersionKind.Group`, resource
"node" and the derived key; in particular the result is not a nil object with a nil error. -/
theorem nodeLister_Get_notFound {Node O E : Type} (GroupName Version : String)
    (l : nodeLister Node O E) (ns name : String) (obj : Iface Node O)
    (h : l.controller.indexer.GetByKey (nodeLister.key ns name) = (obj, false, none)) :
    nodeLister.Get GroupName Version l ns name =
        .returns (none, some (GoError.notFound
          { Group := (NodeGroupVersionKind GroupName Version).Group, Resource := "node" }
          (nodeLister.key ns name))) ∧
      (NodeGroupVersionKind GroupName Version).Group = GroupName ∧
      nodeLister.Get GroupName Version l ns name ≠ .returns (none, none) := by
  have hget : nodeLister.Get GroupName Version l ns name =
      .returns (none, some (GoError.notFound
        { Group := (NodeGroupVersionKind GroupName Version).Group, Resource := "node" }
        (nodeLister.key ns name))) := by
    simp [nodeLister.Get, h, NewNotFound]
  refine ⟨hget, rfl, ?_⟩
  rw [hget]
  intro hc
  cases hc

/-- Witness for C1: a lister over an empty store, asked for node "n1" in namespace "c-1". -/
theorem nodeLister_Get_notFound_witness :
    (({ controller := { indexer := { GetByKey := fun _ => (Iface.nil, false, none) } } } :
        nodeLister Unit Unit Unit).controller.indexer.GetByKey (nodeLister.key "c-1" "n1") =
          (Iface.nil, false, none)) ∧
    (nodeLister.Get "management.cattle.io" "v3"
        ({ controller := { indexer := { GetByKey := fun _ => (Iface.nil, false, none) } } } :
          nodeLister Unit Unit Unit) "c-1" "n1" =
        .returns (none, some (GoError.notFound
          { Group := (NodeGroupVersionKind "management.cattle.io" "v3").Group,
            Resource := "node" }
          (nodeLister.key "c-1" "n1"))) ∧
      (NodeGroupVersionKind "management.cattle.io" "v3").Group = "management.cattle.io" ∧
      nodeLister.Get "management.cattle.io" "v3"
        ({ controller := { indexer := { GetByKey := fun _ => (Iface.nil, false, none) } } } :
          nodeLister Unit Unit Unit) "c-1" "n1" ≠ .returns (none, none)) :=
  ⟨rfl, nodeLister_Get_notFound "management.cattle.io" "v3" _ "c-1" "n1" Iface.nil rfl⟩

/-- C2, as stated, fails: over an empty store `Get` returns the nil object with the NotFound
error, which is neither a stored object with a nil error nor the nil object with an error of
the indexer, whose lookup did not fail. -/
theorem nodeLister_Get_third_result :
    nodeLister.Get "management.cattle.io" "v3" emptyLister "" "n1" =
        .returns (none, some (GoError.notFound
          { Group := "management.cattle.io", Resource := "node" } "n1")) ∧
      emptyLister.controller.indexer.GetByKey (nodeLister.key "" "n1") =
        (Iface.nil, false, none) ∧
      (¬ ∃ p : Option String,
        nodeLister.Get "management.cattle.io" "v3" emptyLister "" "n1" = .returns (p, none)) ∧
      ¬ ∃ (obj : Iface String Unit) (found : Bool) (e : GoError String),
        emptyLister.controller.indexer.GetByKey (nodeLister.key "" "n1") =
          (obj, found, some e) := by
  have hget : nodeLister.Get "management.cattle.io" "v3" emptyLister "" "n1" =
      .returns (none, some (GoError.notFound
        { Group := "management.cattle.io", Resource := "node" } "n1")) := rfl
  refine ⟨hget, rfl, ?_, ?_⟩
  · rintro ⟨p, hp⟩
    rw [hget] at hp
    cases hp
  · rintro ⟨obj, found, e, he⟩
    cases he

/-- C2, amended: `Get` is served from the indexer only. A `*Node` held under the derived key
is returned as it is with a nil error; a failed lookup gives the nil object and the error of
the indexer; a lookup that succeeds and reports the key absent gives the nil object and the
NotFound error. Every result `Get` returns is one of these three, and two indexers that
answer the lookup of the derived key alike give the same outcome. -/
theorem nodeLister_Get_cache_only {Node O E : Type} (GroupName Version : String)
    (l l2 : nodeLister Node O E) (ns name : String) :
    (∀ p, l.controller.indexer.GetByKey (nodeLister.key ns name) = (.ptr p, true, none) →
        nodeLister.Get GroupName Version l ns name = .returns (p, none)) ∧
      (∀ obj found e,
        l.controller.indexer.GetByKey (nodeLister.key ns name) = (obj, found, some e) →
          nodeLister.Get GroupName Version l ns name = .returns (none, some e)) ∧
      (∀ obj, l.controller.indexer.GetByKey (nodeLister.key ns name) = (obj, false, none) →
        nodeLister.Get GroupName Version l ns name =
          .returns (none, some (GoError.notFound
            { Group := GroupName, Resource := "node" } (nodeLister.key ns name)))) ∧
      (∀ r, nodeLister.Get GroupName Version l ns name = .returns r →
        (∃ p, l.controller.indexer.GetByKey (nodeLister.key ns name) = (.ptr p, true, none) ∧
            r = (p, none)) ∨
          (∃ obj found e,
            l.controller.indexer.GetByKey (nodeLister.key ns name) = (obj, found, some e) ∧
              r = (none, some e)) ∨
          ∃ obj, l.controller.indexer.GetByKey (nodeLister.key ns name) = (obj, false, none) ∧
            r = (none, some (GoError.notFound
              { Group := GroupName, Resource := "node" } (nodeLister.key ns name)))) ∧
      (l2.controller.indexer.GetByKey (nodeLister.key ns name) =
          l.controller.indexer.GetByKey (nodeLister.key ns name) →
        nodeLister.Get GroupName Version l2 ns name =
          nodeLister.Get GroupName Version l ns name) := by
  refine ⟨?_, ?_, ?_, ?_, ?_⟩
  · intro p h
    simp [nodeLister.Get, h, Iface.assert]
  · intro obj found e h
    simp [nodeLister.Get, h]
  · intro obj h
    simp [nodeLister.Get, h, NewNotFound, NodeGroupVersionKind]
  · intro r hr
    rcases hk : l.controller.indexer.GetByKey (nodeLister.key ns name) with ⟨obj, found, err⟩
    cases err with
    | some e =>
      right; left
      refine ⟨obj, found, e, rfl, ?_⟩
      simp [nodeLister.Get, hk] at hr
      exact hr.symm
    | none =>
      cases found with
      | false =>
        right; right
        refine ⟨obj, rfl, ?_⟩
        simp [nodeLister.Get, hk, NewNotFound, NodeGroupVersionKind] at hr
        exact hr.symm
      | true =>
        left
        cases obj with
        | ptr p =>
          refine ⟨p, rfl, ?_⟩
          simp [nodeLister.Get, hk, Iface.assert] at hr
          exact hr.symm
        | nil => simp [nodeLister.Get, hk, Iface.assert] at hr
        | other o => simp [nodeLister.Get, hk, Iface.assert] at hr
  · intro h
    simp only [nodeLister.Get, h]

/-- Witness for the amended C2: the store holding "node-a" under "c-1/n1", the store whose
lookups fail, and the empty store. -/
theorem nodeLister_Get_cache_only_witness :
    nodeLister.Get "management.cattle.io" "v3" oneNodeLister "c-1" "n1" =
        .returns (some "node-a", none) ∧
      nodeLister.Get "management.cattle.io" "v3" failingLister "c-1" "n1" =
        .returns (none, some (.other "closed")) ∧
      nodeLister.Get "management.cattle.io" "v3" emptyLister "c-1" "n1" =
        .returns (none, some (GoError.notFound
          { Group := "management.cattle.io", Resource := "node" }
          (nodeLister.key "c-1" "n1"))) ∧
      nodeLister.Get "management.cattle.io" "v3" oneNodeLister "" "n2" =
        nodeLister.Get "management.cattle.io" "v3" emptyLister "" "n2" :=
  ⟨(nodeLister_Get_cache_only "management.cattle.io" "v3" oneNodeLister oneNodeLister
      "c-1" "n1").1 (some "node-a") (by simp [oneNodeLister, nodeLister.key]),
    (nodeLister_Get_cache_only "management.cattle.io" "v3" failingLister failingLister
      "c-1" "n1").2.1 Iface.nil false (.other "closed") rfl,
    (nodeLister_Get_cache_only "management.cattle.io" "v3" emptyLister emptyLister
      "c-1" "n1").2.2.1 Iface.nil rfl,
    (nodeLister_Get_cache_only "management.cattle.io" "v3" emptyLister oneNodeLister
      "" "n2").2.2.2.2 (by simp [oneNodeLister, emptyLister, nodeLister.key])⟩

/-! ## The registered handler functions -/

/-- C5: the function registered by `nodeController.AddHandler` calls `handler(key, nil)` on a
nil object and `handler(key, v)` on a `*Node` `v`, once, and returns the result and the error
of the handler as they are; on an object of any other type it returns `(nil, nil)` and the
handler is not called. -/
theorem nodeController_AddHandler_dispatch {Node O E σ : Type}
    (handler : NodeHandlerFunc Node E σ) (key : String) (w : World σ (HandlerCall Node)) :
    nodeController.AddHandler.func handler key (Iface.nil : Iface Node O) w =
        ((.ptr (handler key none w.state).1.1, (handler key none w.state).1.2),
          { state := (handler key none w.state).2,
            calls := w.calls ++ [{ key := key, obj := none }] }) ∧
      (∀ v : Option Node,
        nodeController.AddHandler.func handler key (Iface.ptr v : Iface Node O) w =
          ((.ptr (handler key v w.state).1.1, (handler key v w.state).1.2),
            { state := (handler key v w.state).2,
              calls := w.calls ++ [{ key := key, obj := v }] })) ∧
      ∀ o : O,
        nodeController.AddHandler.func handler key (Iface.other o : Iface Node O) w =
          ((.nil, none), w) := by
  refine ⟨rfl, fun v => rfl, fun o => rfl⟩

/-- C6: on a non-nil object the function registered by
`nodeController.AddClusterScopedHandler` calls the handler exactly when the object is a
`*Node` and `ObjectInCluster(cluster, obj)` holds, and then returns what the handler returns;
on every other non-nil object it returns `(nil, nil)` and the handler is not called. A nil
object goes to the handler as `handler(key, nil)` whatever the cluster. -/
theorem nodeController_AddClusterScopedHandler_dispatch {Node O E σ : Type}
    (ObjectInCluster : String → Iface Node O → Bool) (cluster : String)
    (handler : NodeHandlerFunc Node E σ) (key : String) (obj : Iface Node O)
    (w : World σ (HandlerCall Node)) :
    (obj = .nil →
        nodeController.AddClusterScopedHandler.func ObjectInCluster cluster handler key obj w =
          ((.ptr (handler key none w.state).1.1, (handler key none w.state).1.2),
            { state := (handler key none w.state).2,
              calls := w.calls ++ [{ key := key, obj := none }] })) ∧
      (∀ v, obj = .ptr v → ObjectInCluster cluster obj = true →
        nodeController.AddClusterScopedHandler.func ObjectInCluster cluster handler key obj w =
          ((.ptr (handler key v w.state).1.1, (handler key v w.state).1.2),
            { state := (handler key v w.state).2,
              calls := w.calls ++ [{ key := key, obj := v }] })) ∧
      (obj ≠ .nil → (¬ ∃ v, obj = .ptr v ∧ ObjectInCluster cluster obj = true) →
        nodeController.AddClusterScopedHandler.func ObjectInCluster cluster handler key obj w =
          ((.nil, none), w)) ∧
      (obj ≠ .nil →
        ((nodeController.AddClusterScopedHandler.func ObjectInCluster cluster handler
            key obj w).2.calls.length = w.calls.length + 1 ↔
          ∃ v, obj = .ptr v ∧ ObjectInCluster cluster obj = true)) := by
  refine ⟨?_, ?_, ?_, ?_⟩
  · rintro rfl
    rfl
  · rintro v rfl hin
    simp [nodeController.AddClusterScopedHandler.func, Iface.isNil, Iface.assertOk, hin,
      toIface, callHandler]
  · intro hne hno
    cases obj with
    | nil => exact absurd rfl hne
    | other o => rfl
    | ptr v =>
      have hin : ObjectInCluster cluster (.ptr v) = false := by
        cases hc : ObjectInCluster cluster (.ptr v) with
        | false => rfl
        | true => exact absurd ⟨v, rfl, hc⟩ hno
      simp [nodeController.AddClusterScopedHandler.func, Iface.isNil, Iface.assertOk, hin]
  · intro hne
    cases obj with
    | nil => exact absurd rfl hne
    | other o =>
      simp [nodeController.AddClusterScopedHandler.func, Iface.isNil, Iface.assertOk]
    | ptr v =>
      cases hc : ObjectInCluster cluster (.ptr v) with
      | false =>
        simp [nodeController.AddClusterScopedHandler.func, Iface.isNil, Iface.assertOk, hc]
      | true =>
        simp [nodeController.AddClusterScopedHandler.func, Iface.isNil, Iface.assertOk, hc,
          toIface, callHandler]

/-- Witness for C6: a handler that counts its calls and returns its argument, with objects in
cluster "c-1" only: the nil object, the node "node-a" in cluster "c-1", and the same node
asked for cluster "c-2". -/
theorem nodeController_AddClusterScopedHandler_dispatch_witness :
    nodeController.AddClusterScopedHandler.func (fun cl _ => cl == "c-1") "c-2"
        (fun _ o (n : Nat) => ((o, (none : Option (GoError Unit))), n + 1)) "c-1/n1"
        (Iface.nil : Iface String Unit) { state := 0, calls := [] } =
        ((.ptr none, none), { state := 1, calls := [] ++ [{ key := "c-1/n1", obj := none }] }) ∧
      nodeController.AddClusterScopedHandler.func (fun cl _ => cl == "c-1") "c-1"
        (fun _ o (n : Nat) => ((o, (none : Option (GoError Unit))), n + 1)) "c-1/n1"
        (Iface.ptr (some "node-a") : Iface String Unit) { state := 0, calls := [] } =
        ((.ptr (some "node-a"), none),
          { state := 1, calls := [] ++ [{ key := "c-1/n1", obj := some "node-a" }] }) ∧
      nodeController.AddClusterScopedHandler.func (fun cl _ => cl == "c-1") "c-2"
        (fun _ o (n : Nat) => ((o, (none : Option (GoError Unit))), n + 1)) "c-1/n1"
        (Iface.ptr (some "node-a") : Iface String Unit) { state := 0, calls := [] } =
        ((.nil, none), { state := 0, calls := [] }) ∧
      ((nodeController.AddClusterScopedHandler.func (fun cl _ => cl == "c-1") "c-1"
          (fun _ o (n : Nat) => ((o, (none : Option (GoError Unit))), n + 1)) "c-1/n1"
          (Iface.ptr (some "node-a") : Iface String Unit)
          { state := 0, calls := [] }).2.calls.length =
          ([] : List (HandlerCall String)).length + 1 ↔
        ∃ v, (Iface.ptr (some "node-a") : Iface String Unit) = .ptr v ∧
          (fun (cl : String) (_ : Iface String Unit) => cl == "c-1") "c-1"
            (Iface.ptr (some "node-a")) = true) :=
  ⟨(nodeController_AddClusterScopedHandler_dispatch (fun cl _ => cl == "c-1") "c-2"
      (fun _ o (n : Nat) => ((o, (none : Option (GoError Unit))), n + 1)) "c-1/n1"
      (Iface.nil : Iface String Unit) { state := 0, calls := [] }).1 rfl,
    (nodeController_AddClusterScopedHandler_dispatch (fun cl _ => cl == "c-1") "c-1"
      (fun _ o (n : Nat) => ((o, (none : Option (GoError Unit))), n + 1)) "c-1/n1"
      (Iface.ptr (some "node-a") : Iface String Unit) { state := 0, calls := [] }).2.1
      (some "node-a") rfl (by decide),
    (nodeController_AddClusterScopedHandler_dispatch (fun cl _ => cl == "c-1") "c-2"
      (fun _ o (n : Nat) => ((o, (none : Option (GoError Unit))), n + 1)) "c-1/n1"
      (Iface.ptr (some "node-a") : Iface String Unit) { state := 0, calls := [] }).2.2.1
      (by intro h; cases h) (by rintro ⟨v, _, h⟩; revert h; decide),
    (nodeController_AddClusterScopedHandler_dispatch (fun cl _ => cl == "c-1") "c-1"
      (fun _ o (n : Nat) => ((o, (none : Option (GoError Unit))), n + 1)) "c-1/n1"
      (Iface.ptr (some "node-a") : Iface String Unit) { state := 0, calls := [] }).2.2.2
      (by intro h; cases h)⟩

/-! ## The lifecycle adapter -/

/-- On an object that is not a `*DynamicSchema` the type assertion of each adapter method
panics before the lifecycle is called. -/
theorem dynamicSchemaLifecycleAdapter_panics {DS O E σ : Type}
    (w : dynamicSchemaLifecycleAdapter DS E σ) (obj : Iface DS O)
    (world : World σ (LifecycleCall DS)) (h : obj.assert = none) :
    w.Create obj world = .panics ∧ w.Finalize obj world = .panics ∧
      w.Updated obj world = .panics := by
  simp [dynamicSchemaLifecycleAdapter.Create, dynamicSchemaLifecycleAdapter.Finalize,
    dynamicSchemaLifecycleAdapter.Updated, h]

/-- C3: on every `*DynamicSchema` object `Finalize` calls `Remove` of the wrapped lifecycle
exactly once, on that object, and returns the very error `Remove` returned; so its error is
non-nil exactly when the error of `Remove` is. -/
theorem dynamicSchemaLifecycleAdapter_Finalize_error {DS O E σ : Type}
    (w : dynamicSchemaLifecycleAdapter DS E σ) (p : Option DS)
    (world : World σ (LifecycleCall DS)) :
    ∃ (out : Iface DS O) (err : Option (GoError E)),
      w.Finalize (.ptr p) world =
          .returns ((out, err),
            { state := (w.lifecycle.Remove p world.state).2,
              calls := world.calls ++
                [{ method := .Remove, obj := p,
                   ok := (w.lifecycle.Remove p world.state).1.2.isNone }] }) ∧
        err = (w.lifecycle.Remove p world.state).1.2 ∧
        (err ≠ none ↔ (w.lifecycle.Remove p world.state).1.2 ≠ none) := by
  rcases hr : (w.lifecycle.Remove p world.state).1.1 with _ | o
  · exact ⟨.nil, (w.lifecycle.Remove p world.state).1.2,
      by simp [dynamicSchemaLifecycleAdapter.Finalize, Iface.assert, callLifecycle,
        dynamicSchemaLifecycleAdapter.result, hr], rfl, Iff.rfl⟩
  · exact ⟨.ptr (some o), (w.lifecycle.Remove p world.state).1.2,
      by simp [dynamicSchemaLifecycleAdapter.Finalize, Iface.assert, callLifecycle,
        dynamicSchemaLifecycleAdapter.result, hr], rfl, Iff.rfl⟩

/-- C4: on every `*DynamicSchema` object, `Create` and `Updated` return the untyped nil object
exactly when the lifecycle method returned a nil `*DynamicSchema`, and otherwise the object
the lifecycle returned; in both cases the error of the lifecycle is returned as it is. -/
theorem dynamicSchemaLifecycleAdapter_Create_Updated_object {DS O E σ : Type}
    (w : dynamicSchemaLifecycleAdapter DS E σ) (p : Option DS)
    (world : World σ (LifecycleCall DS)) :
    (∃ out : Iface DS O,
        w.Create (.ptr p) world =
            .returns ((out, (w.lifecycle.Create p world.state).1.2),
              { state := (w.lifecycle.Create p world.state).2,
                calls := world.calls ++
                  [{ method := .Create, obj := p,
                     ok := (w.lifecycle.Create p world.state).1.2.isNone }] }) ∧
          (out = .nil ↔ (w.lifecycle.Create p world.state).1.1 = none) ∧
          ∀ o, (w.lifecycle.Create p world.state).1.1 = some o → out = .ptr (some o)) ∧
      ∃ out : Iface DS O,
        w.Updated (.ptr p) world =
            .returns ((out, (w.lifecycle.Updated p world.state).1.2),
              { state := (w.lifecycle.Updated p world.state).2,
                calls := world.calls ++
                  [{ method := .Updated, obj := p,
                     ok := (w.lifecycle.Updated p world.state).1.2.isNone }] }) ∧
          (out = .nil ↔ (w.lifecycle.Updated p world.state).1.1 = none) ∧
          ∀ o, (w.lifecycle.Updated p world.state).1.1 = some o → out = .ptr (some o) := by
  constructor
  · rcases hr : (w.lifecycle.Create p world.state).1.1 with _ | o
    · exact ⟨.nil, by simp [dynamicSchemaLifecycleAdapter.Create, Iface.assert, callLifecycle,
        dynamicSchemaLifecycleAdapter.result, hr], by simp, by simp⟩
    · exact ⟨.ptr (some o), by simp [dynamicSchemaLifecycleAdapter.Create, Iface.assert,
        callLifecycle, dynamicSchemaLifecycleAdapter.result, hr], by simp, by simp⟩
  · rcases hr : (w.lifecycle.Updated p world.state).1.1 with _ | o
    · exact ⟨.nil, by simp [dynamicSchemaLifecycleAdapter.Updated, Iface.assert, callLifecycle,
        dynamicSchemaLifecycleAdapter.result, hr], by simp, by simp⟩
    · exact ⟨.ptr (some o), by simp [dynamicSchemaLifecycleAdapter.Updated, Iface.assert,
        callLifecycle, dynamicSchemaLifecycleAdapter.result, hr], by simp, by simp⟩

/-! ## The derived key -/

/-- A list is split in one way only at the first occurrence of a separator. -/
theorem append_cons_eq_of_not_mem {α : Type} (a : α) :
    ∀ (l1 l2 m1 m2 : List α), a ∉ l1 → a ∉ l2 → l1 ++ a :: m1 = l2 ++ a :: m2 →
      l1 = l2 ∧ m1 = m2 := by
  intro l1
  induction l1 with
  | nil =>
    intro l2 m1 m2 _ h2 h
    cases l2 with
    | nil => exact ⟨rfl, by simpa using h⟩
    | cons b t =>
      simp only [List.nil_append, List.cons_append, List.cons.injEq] at h
      exact absurd (h.1 ▸ List.mem_cons_self a t) h2
  | cons x t ih =>
    intro l2 m1 m2 h1 h2 h
    cases l2 with
    | nil =>
      simp only [List.nil_append, List.cons_append, List.cons.injEq] at h
      exact absurd (h.1 ▸ List.mem_cons_self x t) h1
    | cons b t2 =>
      simp only [List.cons_append, List.cons.injEq] at h
      have ht : a ∉ t := fun hm => h1 (List.mem_cons_of_mem _ hm)
      have ht2 : a ∉ t2 := fun hm => h2 (List.mem_cons_of_mem _ hm)
      obtain ⟨e1, e2⟩ := ih t2 m1 m2 ht ht2 h.2
      exact ⟨by rw [h.1, e1], e2⟩

/-- The characters of a key with a non-empty namespace. -/
theorem nodeLister_key_data_of_ne (ns name : String) (h : ns ≠ "") :
    (nodeLister.key ns name).data = ns.data ++ '/' :: name.data := by
  simp [nodeLister.key, h, String.data_append]

/-- The key of the empty namespace is the name. -/
theorem nodeLister_key_empty (name : String) : nodeLister.key "" name = name := by
  simp [nodeLister.key]

/-- A cluster-scoped and a namespaced pair never derive the same key when the cluster-scoped
name holds no "/". -/
theorem nodeLister_key_ne_of_scope (n1 ns2 n2 : String) (h1 : '/' ∉ n1.data)
    (hns : ns2 ≠ "") : nodeLister.key "" n1 ≠ nodeLister.key ns2 n2 := by
  intro h
  have hd := congrArg String.data h
  rw [nodeLister_key_empty, nodeLister_key_data_of_ne ns2 n2 hns] at hd
  apply h1
  rw [hd]
  simp

/-- Equal keys of two pairs that satisfy the precondition come from equal pairs. -/
theorem nodeLister_key_inj (ns1 n1 ns2 n2 : String) (h1 : SlashFree ns1 n1)
    (h2 : SlashFree ns2 n2) (h : nodeLister.key ns1 n1 = nodeLister.key ns2 n2) :
    ns1 = ns2 ∧ n1 = n2 := by
  by_cases e1 : ns1 = ""
  · by_cases e2 : ns2 = ""
    · subst e1 e2
      rw [nodeLister_key_empty, nodeLister_key_empty] at h
      exact ⟨rfl, h⟩
    · subst e1
      exact absurd h (nodeLister_key_ne_of_scope n1 ns2 n2 (h1.2 rfl) e2)
  · by_cases e2 : ns2 = ""
    · subst e2
      exact absurd h.symm (nodeLister_key_ne_of_scope n2 ns1 n1 (h2.2 rfl) e1)
    · have hd := congrArg String.data h
      rw [nodeLister_key_data_of_ne ns1 n1 e1, nodeLister_key_data_of_ne ns2 n2 e2] at hd
      obtain ⟨a, b⟩ := append_cons_eq_of_not_mem '/' _ _ _ _ h1.1 h2.1 hd
      exact ⟨String.ext a, String.ext b⟩

/-- C7, as stated, fails: the pairs ("a", "b/c") and ("a/b", "c") derive the same key, and so
do ("", "a/b") and ("a", "b"). -/
theorem nodeLister_key_collision :
    (nodeLister.key "a" "b/c" = nodeLister.key "a/b" "c" ∧ ¬ ("a" = "a/b" ∧ "b/c" = "c")) ∧
      nodeLister.key "" "a/b" = nodeLister.key "a" "b" ∧ ¬ ("" = "a" ∧ "a/b" = "b") := by
  refine ⟨⟨by decide, by decide⟩, by decide, by decide⟩

/-- C7, amended: among the pairs whose namespace holds no "/" and whose name holds no "/" when
the namespace is empty, the derived key identifies the pair: two such pairs derive the same
key exactly when they are the same pair. -/
theorem nodeLister_key_identifies (ns1 n1 ns2 n2 : String) (h1 : SlashFree ns1 n1)
    (h2 : SlashFree ns2 n2) :
    nodeLister.key ns1 n1 = nodeLister.key ns2 n2 ↔ ns1 = ns2 ∧ n1 = n2 := by
  constructor
  · exact nodeLister_key_inj ns1 n1 ns2 n2 h1 h2
  · rintro ⟨rfl, rfl⟩
    rfl

/-- Witness for the amended C7: the namespaced pair ("c-1", "n1") is told apart from the
cluster-scoped pair ("", "n1"), from ("c-2", "n1") and from ("c-1", "n2"), and the
cluster-scoped pairs ("", "n1") and ("", "n2") from each other. -/
theorem nodeLister_key_identifies_witness :
    SlashFree "c-1" "n1" ∧ SlashFree "" "n1" ∧ SlashFree "c-2" "n1" ∧ SlashFree "c-1" "n2" ∧
      SlashFree "" "n2" ∧
      (nodeLister.key "c-1" "n1" = nodeLister.key "" "n1" ↔ "c-1" = "" ∧ "n1" = "n1") ∧
      nodeLister.key "c-1" "n1" ≠ nodeLister.key "" "n1" ∧
      nodeLister.key "c-1" "n1" ≠ nodeLister.key "c-2" "n1" ∧
      nodeLister.key "c-1" "n1" ≠ nodeLister.key "c-1" "n2" ∧
      nodeLister.key "" "n1" ≠ nodeLister.key "" "n2" :=
  ⟨by decide, by decide, by decide, by decide, by decide,
    nodeLister_key_identifies "c-1" "n1" "" "n1" (by decide) (by decide),
    fun h => absurd
      ((nodeLister_key_identifies "c-1" "n1" "" "n1" (by decide) (by decide)).1 h).1
      (by decide),
    fun h => absurd
      ((nodeLister_key_identifies "c-1" "n1" "c-2" "n1" (by decide) (by decide)).1 h).1
      (by decide),
    fun h => absurd
      ((nodeLister_key_identifies "c-1" "n1" "c-1" "n2" (by decide) (by decide)).1 h).2
      (by decide),
    fun h => absurd
      ((nodeLister_key_identifies "" "n1" "" "n2" (by decide) (by decide)).1 h).2
      (by decide)⟩

/-- C9: for two pairs that satisfy the precondition, equal derived keys mean equal namespaces
and equal names, and the key of a cluster-scoped pair is never the key of a namespaced
pair. -/
theorem nodeLister_key_injective (ns1 n1 ns2 n2 : String) (h1 : SlashFree ns1 n1)
    (h2 : SlashFree ns2 n2) :
    (nodeLister.key ns1 n1 = nodeLister.key ns2 n2 → ns1 = ns2 ∧ n1 = n2) ∧
      (ns1 = "" → ns2 ≠ "" → nodeLister.key ns1 n1 ≠ nodeLister.key ns2 n2) ∧
      (ns1 ≠ "" → ns2 = "" → nodeLister.key ns1 n1 ≠ nodeLister.key ns2 n2) := by
  refine ⟨nodeLister_key_inj ns1 n1 ns2 n2 h1 h2, ?_, ?_⟩
  · intro e1 e2 h
    exact e2 ((nodeLister_key_inj ns1 n1 ns2 n2 h1 h2 h).1 ▸ e1)
  · intro e1 e2 h
    exact e1 ((nodeLister_key_inj ns1 n1 ns2 n2 h1 h2 h).1 ▸ e2)

/-- Witness for C9: the namespaced pair ("c-1", "n1") against itself and against the
cluster-scoped pair ("", "n1"). -/
theorem nodeLister_key_injective_witness :
    SlashFree "c-1" "n1" ∧ SlashFree "" "n1" ∧
      ("c-1" = "c-1" ∧ "n1" = "n1") ∧
      nodeLister.key "" "n1" ≠ nodeLister.key "c-1" "n1" ∧
      nodeLister.key "c-1" "n1" ≠ nodeLister.key "" "n1" :=
  ⟨by decide, by decide,
    (nodeLister_key_injective "c-1" "n1" "c-1" "n1" (by decide) (by decide)).1 rfl,
    (nodeLister_key_injective "" "n1" "c-1" "n1" (by decide) (by decide)).2.1 rfl (by decide),
    (nodeLister_key_injective "c-1" "n1" "" "n1" (by decide) (by decide)).2.2 (by decide) rfl⟩

/-! ## The finalizer token -/

/-- An update call leaves the world and the observation flag as they are, and stores the new
object or nothing. -/
theorem EngineState_update_frame {S E σ : Type} (c : EngineState S E σ) (new : Resource S) :
    (c.update new).2.world = c.world ∧ (c.update new).2.observed = c.observed ∧
      ((c.update new).2.stored = some new ∨ (c.update new).2.stored = c.stored) := by
  rcases hu : c.updates with _ | ⟨_ | e, rest⟩ <;> simp [EngineState.update, hu]

/-- When every update call to come is accepted, an update call returns no error, stores the
new object, and every update call after it is accepted too. -/
theorem EngineState_update_accepted {S E σ : Type} (c : EngineState S E σ) (new : Resource S)
    (h : ∀ u ∈ c.updates, u = none) :
    (c.update new).1 = none ∧ (c.update new).2.stored = some new ∧
      ∀ u ∈ (c.update new).2.updates, u = none := by
  rcases hu : c.updates with _ | ⟨_ | e, rest⟩
  · simp [EngineState.update, hu]
  · rw [hu] at h
    simp only [EngineState.update, hu, true_and]
    exact fun u hm => h u (List.mem_cons_of_mem _ hm)
  · rw [hu] at h
    have := h (some e) (List.mem_cons_self _ _)
    cases this

/-- Persisting what a handler returned leaves the world as it is, and stores the returned
object or nothing. -/
theorem EngineState_persist_spec {S E σ : Type} (c : EngineState S E σ)
    (o : Iface (Resource S) Empty) (err : Option (GoError E)) :
    ∃ out c1, c.persist o err = .returns (out, c1) ∧ c1.world = c.world ∧
      (c1.stored = c.stored ∨ ∃ new, o = .ptr (some new) ∧ c1.stored = some new) ∧
      ((∀ u ∈ c.updates, u = none) → ∀ u ∈ c1.updates, u = none) := by
  cases o with
  | nil => exact ⟨_, c, rfl, rfl, Or.inl rfl, fun h => h⟩
  | other e => exact e.elim
  | ptr p =>
    cases p with
    | none => exact ⟨_, c, rfl, rfl, Or.inl rfl, fun h => h⟩
    | some new =>
      obtain ⟨hw, _, hs⟩ := EngineState_update_frame c new
      refine ⟨_, _, rfl, hw, ?_, fun h => (EngineState_update_accepted c new h).2.2⟩
      rcases hs with hs | hs
      · exact Or.inr ⟨new, rfl, hs⟩
      · exact Or.inl hs

/-- Whether a state with a stored object carries the token is read off that object. -/
theorem EngineState_hasToken_of_stored {S E σ : Type} (tok : String) (c : EngineState S E σ)
    (r : Resource S) (h : c.stored = some r) :
    c.hasToken tok = decide (tok ∈ r.finalizers) := by
  simp [EngineState.hasToken, h]

/-- An update call that returns no error has stored the new object. -/
theorem EngineState_update_stored_of_none {S E σ : Type} (c : EngineState S E σ)
    (new : Resource S) (h : (c.update new).1 = none) : (c.update new).2.stored = some new := by
  rcases hu : c.updates with _ | ⟨_ | e, rest⟩ <;> simp [EngineState.update, hu] at h ⊢

/-- One run of the engine on the stored object returns and extends the log. If the lifecycle
keeps the token, the token leaves the object only when the calls added hold a successful
`Remove`; if every update call is accepted, a successful `Remove` among the calls added takes
the token off. -/
theorem NewObjectLifecycleAdapter_step {S E σ : Type} (token : String → Bool → String)
    (name : String) (cs : Bool) (adapter : dynamicSchemaLifecycleAdapter (Resource S) E σ)
    (key : String) (r : Resource S) (c : EngineState S E σ) (hst : c.stored = some r) :
    ∃ out c1, NewObjectLifecycleAdapter token name cs adapter key (.ptr (some r)) c =
        .returns (out, c1) ∧
      ∃ new, c1.world.calls = c.world.calls ++ new ∧
        (KeepsToken (token name cs) adapter.lifecycle →
          (c.hasToken (token name cs) && !c1.hasToken (token name cs)) = true →
            removeSucceeded new = true) ∧
        ((∀ u ∈ c.updates, u = none) →
          (removeSucceeded new = true →
            (c.hasToken (token name cs) && !c1.hasToken (token name cs)) = true) ∧
          ∀ u ∈ c1.updates, u = none) := by
  by_cases hd : r.deletionTimestamp = true
  · by_cases ht : token name cs ∈ r.finalizers
    · rcases he : (adapter.lifecycle.Remove (some r) c.world.state).1.2 with _ | e
      · -- `Remove` succeeded: the update call takes the token off
        have hrun : NewObjectLifecycleAdapter token name cs adapter key (.ptr (some r)) c =
            .returns ((.nil,
              (({ c with world :=
                  { state := (adapter.lifecycle.Remove (some r) c.world.state).2,
                    calls := c.world.calls ++
                      [{ method := .Remove, obj := some r, ok := true }] } } :
                  EngineState S E σ).update
                { r with finalizers := r.finalizers.filter (· ≠ token name cs) }).1),
              (({ c with world :=
                  { state := (adapter.lifecycle.Remove (some r) c.world.state).2,
                    calls := c.world.calls ++
                      [{ method := .Remove, obj := some r, ok := true }] } } :
                  EngineState S E σ).update
                { r with finalizers := r.finalizers.filter (· ≠ token name cs) }).2) := by
          rcases ho : (adapter.lifecycle.Remove (some r) c.world.state).1.1 with _ | o <;>
          simp [NewObjectLifecycleAdapter, dynamicSchemaLifecycleAdapter.Finalize,
            Iface.assert, callLifecycle, dynamicSchemaLifecycleAdapter.result, hd, ht, ho, he]
        obtain ⟨hw, _, _⟩ := EngineState_update_frame
          ({ c with world :=
              { state := (adapter.lifecycle.Remove (some r) c.world.state).2,
                calls := c.world.calls ++
                  [{ method := .Remove, obj := some r, ok := true }] } } : EngineState S E σ)
          { r with finalizers := r.finalizers.filter (· ≠ token name cs) }
        refine ⟨_, _, hrun, [{ method := .Remove, obj := some r, ok := true }], ?_, ?_, ?_⟩
        · rw [hw]
        · intro _ _
          simp [removeSucceeded]
        · intro hU
          obtain ⟨_, hs, hU1⟩ := EngineState_update_accepted
            ({ c with world :=
                { state := (adapter.lifecycle.Remove (some r) c.world.state).2,
                  calls := c.world.calls ++
                    [{ method := .Remove, obj := some r, ok := true }] } } :
              EngineState S E σ)
            { r with finalizers := r.finalizers.filter (· ≠ token name cs) } hU
          refine ⟨fun _ => ?_, hU1⟩
          rw [EngineState_hasToken_of_stored _ _ _ hst, EngineState_hasToken_of_stored _ _ _ hs]
          simp [ht]
      · -- `Remove` failed: nothing is stored
        refine ⟨(.nil, some e),
          { c with world :=
              { state := (adapter.lifecycle.Remove (some r) c.world.state).2,
                calls := c.world.calls ++
                  [{ method := .Remove, obj := some r, ok := false }] } },
          ?_, [{ method := .Remove, obj := some r, ok := false }], rfl, ?_, ?_⟩
        · rcases ho : (adapter.lifecycle.Remove (some r) c.world.state).1.1 with _ | o <;>
          simp [NewObjectLifecycleAdapter, dynamicSchemaLifecycleAdapter.Finalize,
            Iface.assert, callLifecycle, dynamicSchemaLifecycleAdapter.result, hd, ht, ho, he]
        · intro _ h
          simp [EngineState.hasToken, hst] at h
        · intro hU
          exact ⟨fun h => by simp [removeSucceeded] at h, hU⟩
    · refine ⟨(.nil, none), c, ?_, [], by simp, ?_, ?_⟩
      · simp [NewObjectLifecycleAdapter, hd, ht]
      · intro _ h
        simp [EngineState.hasToken, hst] at h
      · intro hU
        exact ⟨fun h => by simp [removeSucceeded] at h, hU⟩
  · by_cases hobs : c.observed = true
    · rcases ho : (adapter.lifecycle.Updated (some r) c.world.state).1.1 with _ | o
      · -- `Updated` returned the nil object: nothing is stored
        refine ⟨(.nil, (adapter.lifecycle.Updated (some r) c.world.state).1.2),
          { c with world :=
              { state := (adapter.lifecycle.Updated (some r) c.world.state).2,
                calls := c.world.calls ++
                  [{ method := .Updated, obj := some r,
                     ok := (adapter.lifecycle.Updated (some r) c.world.state).1.2.isNone }] } },
          ?_, [_], rfl, ?_, ?_⟩
        · simp [NewObjectLifecycleAdapter, dynamicSchemaLifecycleAdapter.Updated,
            Iface.assert, callLifecycle, dynamicSchemaLifecycleAdapter.result, hd, ho, hobs,
            EngineState.persist]
        · intro _ h
          simp [EngineState.hasToken, hst] at h
        · intro hU
          exact ⟨fun h => by simp [removeSucceeded] at h, hU⟩
      · -- `Updated` returned an object: it is persisted as it is
        obtain ⟨c2, hc2⟩ : ∃ c2 : EngineState S E σ, c2 =
            { c with world :=
                { state := (adapter.lifecycle.Updated (some r) c.world.state).2,
                  calls := c.world.calls ++
                    [{ method := .Updated, obj := some r,
                       ok := (adapter.lifecycle.Updated (some r)
                         c.world.state).1.2.isNone }] } } := ⟨_, rfl⟩
        have hrun : NewObjectLifecycleAdapter token name cs adapter key (.ptr (some r)) c =
            .returns ((.ptr (some o),
              match (adapter.lifecycle.Updated (some r) c.world.state).1.2 with
              | some e => some e
              | none => (c2.update o).1), (c2.update o).2) := by
          subst hc2
          simp [NewObjectLifecycleAdapter, dynamicSchemaLifecycleAdapter.Updated,
            Iface.assert, callLifecycle, dynamicSchemaLifecycleAdapter.result, hd, ho, hobs,
            EngineState.persist]
        have h2s : c2.stored = some r := by rw [hc2]; exact hst
        have h2u : c2.updates = c.updates := by rw [hc2]
        have h2w : c2.world.calls = c.world.calls ++
            [{ method := .Updated, obj := some r,
               ok := (adapter.lifecycle.Updated (some r) c.world.state).1.2.isNone }] := by
          rw [hc2]
        obtain ⟨hw, _, hs⟩ := EngineState_update_frame c2 o
        refine ⟨_, _, hrun, [_], by rw [hw, h2w], ?_, ?_⟩
        · intro hk h
          exfalso
          rcases hs with hs | hs
          · rw [EngineState_hasToken_of_stored _ _ _ hst,
              EngineState_hasToken_of_stored _ _ _ hs] at h
            simp only [Bool.and_eq_true, decide_eq_true_eq, Bool.not_eq_true',
              decide_eq_false_iff_not] at h
            exact h.2 ((hk r o c.world.state h.1).2 ho)
          · rw [EngineState_hasToken_of_stored _ _ _ hst,
              EngineState_hasToken_of_stored _ _ _ (hs.trans h2s)] at h
            simp at h
        · intro hU
          exact ⟨fun h => by simp [removeSucceeded] at h,
            (EngineState_update_accepted c2 o (h2u ▸ hU)).2.2⟩
    · -- first observation: the token is added, then `Create` runs
      obtain ⟨dt, fin, st⟩ := r
      simp only [Bool.not_eq_true] at hd
      subst hd
      simp only [Bool.not_eq_true] at hobs
      obtain ⟨hw1, _, hs1⟩ := EngineState_update_frame c ⟨false, token name cs :: fin, st⟩
      rcases hu : (c.update ⟨false, token name cs :: fin, st⟩).1 with _ | uerr
      · have hs1n := EngineState_update_stored_of_none c ⟨false, token name cs :: fin, st⟩ hu
        obtain ⟨c2, hc2⟩ : ∃ c2 : EngineState S E σ, c2 =
            { (c.update ⟨false, token name cs :: fin, st⟩).2 with
              world :=
                { state := (adapter.lifecycle.Create
                    (some ⟨false, token name cs :: fin, st⟩) c.world.state).2,
                  calls := c.world.calls ++
                    [{ method := .Create, obj := some ⟨false, token name cs :: fin, st⟩,
                       ok := (adapter.lifecycle.Create
                         (some ⟨false, token name cs :: fin, st⟩) c.world.state).1.2.isNone }] },
              observed := true } := ⟨_, rfl⟩
        have h2s : c2.stored = some ⟨false, token name cs :: fin, st⟩ := by
          rw [hc2]; exact hs1n
        have h2u : c2.updates = (c.update ⟨false, token name cs :: fin, st⟩).2.updates := by
          rw [hc2]
        have h2w : c2.world.calls = c.world.calls ++
            [{ method := .Create, obj := some ⟨false, token name cs :: fin, st⟩,
               ok := (adapter.lifecycle.Create
                 (some ⟨false, token name cs :: fin, st⟩) c.world.state).1.2.isNone }] := by
          rw [hc2]
        rcases ho : (adapter.lifecycle.Create
            (some ⟨false, token name cs :: fin, st⟩) c.world.state).1.1 with _ | o
        · have hrun : NewObjectLifecycleAdapter token name cs adapter key
              (.ptr (some ⟨false, fin, st⟩)) c =
              .returns ((.nil, (adapter.lifecycle.Create
                (some ⟨false, token name cs :: fin, st⟩) c.world.state).1.2), c2) := by
            subst hc2
            simp [NewObjectLifecycleAdapter, dynamicSchemaLifecycleAdapter.Create,
              Iface.assert, callLifecycle, dynamicSchemaLifecycleAdapter.result, ho, hobs, hu,
              EngineState.persist]
          refine ⟨_, _, hrun, [_], h2w, ?_, ?_⟩
          · intro _ h
            rw [EngineState_hasToken_of_stored _ _ _ h2s] at h
            simp at h
          · intro hU
            exact ⟨fun h => by simp [removeSucceeded] at h,
              h2u ▸ (EngineState_update_accepted c _ hU).2.2⟩
        · have hrun : NewObjectLifecycleAdapter token name cs adapter key
              (.ptr (some ⟨false, fin, st⟩)) c =
              .returns ((.ptr (some o),
                match (adapter.lifecycle.Create
                  (some ⟨false, token name cs :: fin, st⟩) c.world.state).1.2 with
                | some e => some e
                | none => (c2.update o).1), (c2.update o).2) := by
            subst hc2
            simp [NewObjectLifecycleAdapter, dynamicSchemaLifecycleAdapter.Create,
              Iface.assert, callLifecycle, dynamicSchemaLifecycleAdapter.result, ho, hobs, hu,
              EngineState.persist]
          obtain ⟨hw, _, hs⟩ := EngineState_update_frame c2 o
          refine ⟨_, _, hrun, [_], by rw [hw, h2w], ?_, ?_⟩
          · intro hk h
            exfalso
            rcases hs with hs | hs
            · rw [EngineState_hasToken_of_stored _ _ _ hs] at h
              simp only [Bool.and_eq_true, Bool.not_eq_true', decide_eq_false_iff_not] at h
              exact h.2 ((hk ⟨false, token name cs :: fin, st⟩ o c.world.state
                (List.mem_cons_self _ _)).1 ho)
            · rw [EngineState_hasToken_of_stored _ _ _ (hs.trans h2s)] at h
              simp at h
          · intro hU
            exact ⟨fun h => by simp [removeSucceeded] at h,
              (EngineState_update_accepted c2 o
                (h2u ▸ (EngineState_update_accepted c _ hU).2.2)).2.2⟩
      · -- the update call that adds the token failed
        refine ⟨(.nil, some uerr), (c.update ⟨false, token name cs :: fin, st⟩).2, ?_, [],
          by rw [hw1, List.append_nil], ?_, ?_⟩
        · simp [NewObjectLifecycleAdapter, hobs, hu]
        · intro _ h
          exfalso
          rcases hs1 with hs | hs
          · rw [EngineState_hasToken_of_stored _ _ _ hs] at h
            simp at h
          · rw [EngineState_hasToken_of_stored _ _ _ hst,
              EngineState_hasToken_of_stored _ _ _ (hs.trans hst)] at h
            simp at h
        · intro hU
          have := (EngineState_update_accepted c ⟨false, token name cs :: fin, st⟩ hU).1
          rw [hu] at this
          cases this

/-- The handler built by `NewDynamicSchemaLifecycleAdapter` over the engine leaves the state
the engine leaves. -/
theorem NewDynamicSchemaLifecycleAdapter_step {S E σ : Type} (token : String → Bool → String)
    (name : String) (cs : Bool) (l : DynamicSchemaLifecycle (Resource S) E σ)
    (key : String) (r : Resource S) (c : EngineState S E σ) (hst : c.stored = some r) :
    ∃ out c1, NewDynamicSchemaLifecycleAdapter (O := Empty) (NewObjectLifecycleAdapter token)
        name cs l key (some r) c = .returns (out, c1) ∧
      ∃ new, c1.world.calls = c.world.calls ++ new ∧
        (KeepsToken (token name cs) l →
          (c.hasToken (token name cs) && !c1.hasToken (token name cs)) = true →
            removeSucceeded new = true) ∧
        ((∀ u ∈ c.updates, u = none) →
          (removeSucceeded new = true →
            (c.hasToken (token name cs) && !c1.hasToken (token name cs)) = true) ∧
          ∀ u ∈ c1.updates, u = none) := by
  obtain ⟨⟨newObj, err⟩, c1, hrun, hnew⟩ :=
    NewObjectLifecycleAdapter_step token name cs { lifecycle := l } key r c hst
  cases newObj with
  | nil => exact ⟨(none, err), c1, by simp [NewDynamicSchemaLifecycleAdapter, hrun,
      Iface.assertOk], hnew⟩
  | ptr p => exact ⟨(p, err), c1, by simp [NewDynamicSchemaLifecycleAdapter, hrun,
      Iface.assertOk], hnew⟩
  | other o => exact o.elim

/-- Every event returns and extends the log, with the two properties of a run of the
engine. -/
theorem EngineState_step_spec {S E σ : Type} (token : String → Bool → String)
    (name : String) (cs : Bool) (l : DynamicSchemaLifecycle (Resource S) E σ)
    (key : String) (c : EngineState S E σ) (e : Event) :
    ∃ c1, c.step (NewDynamicSchemaLifecycleAdapter (O := Empty)
        (NewObjectLifecycleAdapter token) name cs l) key e = .returns c1 ∧
      ∃ new, c1.world.calls = c.world.calls ++ new ∧
        (KeepsToken (token name cs) l →
          (c.hasToken (token name cs) && !c1.hasToken (token name cs)) = true →
            removeSucceeded new = true) ∧
        ((∀ u ∈ c.updates, u = none) →
          (removeSucceeded new = true →
            (c.hasToken (token name cs) && !c1.hasToken (token name cs)) = true) ∧
          ∀ u ∈ c1.updates, u = none) := by
  cases e with
  | sync =>
    rcases hst : c.stored with _ | r
    · refine ⟨c, by simp [EngineState.step, hst], [], by simp, ?_, ?_⟩
      · intro _ h
        simp [EngineState.hasToken, hst] at h
      · intro hU
        exact ⟨fun h => by simp [removeSucceeded] at h, hU⟩
    · obtain ⟨out, c1, hrun, hnew⟩ :=
        NewDynamicSchemaLifecycleAdapter_step token name cs l key r c hst
      exact ⟨c1, by simp [EngineState.step, hst, hrun], hnew⟩
  | delete =>
    refine ⟨_, rfl, [], by simp, ?_, ?_⟩
    · intro _ h
      rcases hst : c.stored with _ | r <;> simp [EngineState.hasToken, hst] at h
    · intro hU
      exact ⟨fun h => by simp [removeSucceeded] at h, hU⟩
  | purge =>
    rcases hst : c.stored with _ | r
    · refine ⟨c, by simp [EngineState.step, hst], [], by simp, ?_, ?_⟩
      · intro _ h
        simp [EngineState.hasToken, hst] at h
      · intro hU
        exact ⟨fun h => by simp [removeSucceeded] at h, hU⟩
    · by_cases hp : (r.deletionTimestamp && r.finalizers.isEmpty) = true
      · refine ⟨{ c with stored := none }, by simp [EngineState.step, hst, hp], [], by simp,
          ?_, ?_⟩
        · intro _ h
          have hfin : r.finalizers = [] := by
            simp only [Bool.and_eq_true, List.isEmpty_iff] at hp
            exact hp.2
          simp [EngineState.hasToken, hst, hfin] at h
        · intro hU
          exact ⟨fun h => by simp [removeSucceeded] at h, hU⟩
      · refine ⟨c, by simp [EngineState.step, hst, hp], [], by simp, ?_, ?_⟩
        · intro _ h
          simp [EngineState.hasToken, hst] at h
        · intro hU
          exact ⟨fun h => by simp [removeSucceeded] at h, hU⟩

/-- Every sequence of events is processed to the end. Along the states passed through, if the
lifecycle keeps the token, the token is taken off only when the calls added to the log hold a
successful `Remove`; if every update call is accepted, a successful `Remove` in the calls
added means the token is taken off. -/
theorem EngineState_trace_spec {S E σ : Type} (token : String → Bool → String)
    (name : String) (cs : Bool) (l : DynamicSchemaLifecycle (Resource S) E σ)
    (key : String) (evs : List Event) :
    ∀ c : EngineState S E σ, ∃ rest last,
      EngineState.trace (NewDynamicSchemaLifecycleAdapter (O := Empty)
          (NewObjectLifecycleAdapter token) name cs l) key c evs = .returns (c :: rest) ∧
        (c :: rest).getLast? = some last ∧
        ∃ new, last.world.calls = c.world.calls ++ new ∧
          (KeepsToken (token name cs) l →
            tokenRemoved (token name cs) (c :: rest) = true → removeSucceeded new = true) ∧
          ((∀ u ∈ c.updates, u = none) →
            removeSucceeded new = true → tokenRemoved (token name cs) (c :: rest) = true) := by
  induction evs with
  | nil =>
    intro c
    refine ⟨[], c, rfl, rfl, [], by simp, ?_, ?_⟩
    · intro _ h
      simp [tokenRemoved] at h
    · intro _ h
      simp [removeSucceeded] at h
  | cons e es ih =>
    intro c
    obtain ⟨c1, hstep, new1, hcalls1, hto1, hfrom1⟩ :=
      EngineState_step_spec token name cs l key c e
    obtain ⟨rest, last, htr, hlast, new2, hcalls2, hto2, hfrom2⟩ := ih c1
    refine ⟨c1 :: rest, last, by simp [EngineState.trace, hstep, htr], ?_, new1 ++ new2, ?_,
      ?_, ?_⟩
    · rw [List.getLast?_cons_cons]
      exact hlast
    · rw [hcalls2, hcalls1, List.append_assoc]
    · intro hk h
      simp only [tokenRemoved, Bool.or_eq_true] at h
      simp only [removeSucceeded, List.any_append, Bool.or_eq_true]
      rcases h with h | h
      · exact Or.inl (hto1 hk h)
      · exact Or.inr (hto2 hk h)
    · intro hU h
      simp only [removeSucceeded, List.any_append, Bool.or_eq_true] at h
      simp only [tokenRemoved, Bool.or_eq_true]
      rcases h with h | h
      · exact Or.inl ((hfrom1 hU).1 h)
      · exact Or.inr (hfrom2 (hfrom1 hU).2 h)

/-- The lifecycle `retryLifecycle` keeps every token. -/
theorem retryLifecycle_keepsToken (tok : String) : KeepsToken tok retryLifecycle := by
  intro r o s h
  constructor
  · intro ho
    simp only [retryLifecycle, Option.map_some', Option.some.injEq] at ho
    subst ho
    exact h
  · intro ho
    simp only [retryLifecycle, Option.map_some', Option.some.injEq] at ho
    subst ho
    exact h

/-- C8, as stated, fails on the engine of the specification, in both directions. A lifecycle
whose `Updated` returns its object without finalizers has that object persisted, so the token
is taken off though `Remove` was never called; and when the update call after a successful
`Remove` is refused by the backing store, `Remove` has succeeded and the token is still on
the object. -/
theorem finalizer_removed_not_iff_Remove_succeeded :
    exampleRun stripLifecycle [] [.sync, .sync] = some (true, false) ∧
      exampleRun eagerLifecycle [none, some (.other "conflict")]
        [.sync, .delete, .sync, .purge] = some (false, true) := by
  refine ⟨by decide, by decide⟩

/-- C8, amended: for the handler built by `NewDynamicSchemaLifecycleAdapter` over the engine
of the specification, every sequence of events on an object is processed to the end. If the
lifecycle never returns from `Create` or `Updated` an object that has lost the token, the
token is taken off the object only if `Remove` has returned a nil error at least once. If the
backing store accepts every update call, the token is taken off the object if `Remove` has
returned a nil error at least once. -/
theorem finalizer_removed_and_Remove_succeeded {S E σ : Type}
    (token : String → Bool → String) (name : String) (clusterScoped : Bool)
    (l : DynamicSchemaLifecycle (Resource S) E σ) (key : String)
    (stored : Option (Resource S)) (observed : Bool) (updates : List (Option (GoError E)))
    (s : σ) (evs : List Event) :
    ∃ tr last,
      EngineState.trace (NewDynamicSchemaLifecycleAdapter (O := Empty)
          (NewObjectLifecycleAdapter token) name clusterScoped l) key
          { stored := stored, observed := observed, updates := updates,
            world := { state := s, calls := [] } }
          evs = .returns tr ∧
        tr.getLast? = some last ∧
        (KeepsToken (token name clusterScoped) l →
          tokenRemoved (token name clusterScoped) tr = true →
            removeSucceeded last.world.calls = true) ∧
        ((∀ u ∈ updates, u = none) →
          removeSucceeded last.world.calls = true →
            tokenRemoved (token name clusterScoped) tr = true) := by
  obtain ⟨rest, last, htr, hlast, new, hcalls, hto, hfrom⟩ :=
    EngineState_trace_spec token name clusterScoped l key evs
      { stored := stored, observed := observed, updates := updates,
        world := { state := s, calls := [] } }
  have hnew : last.world.calls = new := by simpa using hcalls
  refine ⟨_, last, htr, hlast, ?_, ?_⟩
  · intro hk h
    rw [hnew]
    exact hto hk h
  · intro hU h
    rw [hnew] at h
    exact hfrom hU h

/-- Witness for the amended C8: the lifecycle whose `Remove` fails once and whose `Create` and
`Updated` keep the finalizers, with every update accepted, on an object that is created,
marked for deletion and synced twice. After one failed `Remove` the token is still on the
object; the next round takes it off after the successful `Remove`; an object that is never
marked for deletion keeps its token. -/
theorem finalizer_removed_and_Remove_succeeded_witness :
    KeepsToken "cleanup" retryLifecycle ∧
      (∀ u ∈ ([] : List (Option (GoError String))), u = none) ∧
      (∃ tr last,
        EngineState.trace (NewDynamicSchemaLifecycleAdapter (O := Empty)
            (NewObjectLifecycleAdapter fun name _ => name) "cleanup" false retryLifecycle)
            "c-1/x"
            { stored := some { deletionTimestamp := false, finalizers := [], status := 0 }
              observed := false
              updates := []
              world := { state := 0, calls := [] } }
            [.sync, .delete, .sync, .sync, .purge] = .returns tr ∧
          tr.getLast? = some last ∧
          (tokenRemoved "cleanup" tr = true → removeSucceeded last.world.calls = true) ∧
          (removeSucceeded last.world.calls = true → tokenRemoved "cleanup" tr = true)) ∧
      exampleRun retryLifecycle [] [.sync, .delete, .sync] = some (false, false) ∧
      exampleRun retryLifecycle [] [.sync, .delete, .sync, .sync, .purge] = some (true, true) ∧
      exampleRun retryLifecycle [] [.sync, .sync, .sync] = some (false, false) := by
  refine ⟨retryLifecycle_keepsToken "cleanup", (fun u hu => by cases hu), ?_,
    by decide, by decide, by decide⟩
  obtain ⟨tr, last, htr, hlast, hto, hfrom⟩ :=
    finalizer_removed_and_Remove_succeeded (fun name _ => name) "cleanup" false retryLifecycle
      "c-1/x" (some { deletionTimestamp := false, finalizers := [], status := 0 }) false [] 0
      [.sync, .delete, .sync, .sync, .purge]
  exact ⟨tr, last, htr, hlast, hto (retryLifecycle_keepsToken "cleanup"),
    hfrom (fun u hu => by cases hu)⟩

/-! ## Controllers per namespace -/

/-- A lookup that finds a controller returns it and leaves the state as it is. -/
theorem nodeClient_Controller_of_some (st : State) (ns : String) (c : Nat)
    (h : st.client.nodeControllers ns = some c) :
    nodeClient.Controller { ns := ns } st = (c, st) := by
  simp [nodeClient.Controller, h]

/-- After `Controller` the map holds the returned controller under the namespace. -/
theorem nodeClient_Controller_lookup (st : State) (ns : String) :
    (nodeClient.Controller { ns := ns } st).2.client.nodeControllers ns =
      some (nodeClient.Controller { ns := ns } st).1 := by
  cases h : st.client.nodeControllers ns <;> simp [nodeClient.Controller, h]

/-- The entries of the map survive `Controller` on any namespace. -/
theorem nodeClient_Controller_keeps (st : State) (ns k : String) (c : Nat)
    (h : st.client.nodeControllers k = some c) :
    (nodeClient.Controller { ns := ns } st).2.client.nodeControllers k = some c := by
  cases hn : st.client.nodeControllers ns with
  | some d => simpa [nodeClient.Controller, hn] using h
  | none =>
    have hk : k ≠ ns := by
      rintro rfl
      rw [hn] at h
      cases h
    simpa [nodeClient.Controller, hn, Function.update_noteq hk] using h

/-- The method `Controller` keeps the state well formed. -/
theorem nodeClient_Controller_wellFormed (st : State) (ns : String) (hwf : st.WellFormed) :
    (nodeClient.Controller { ns := ns } st).2.WellFormed := by
  obtain ⟨hnd, hlt, hin⟩ := hwf
  cases hn : st.client.nodeControllers ns with
  | some d => simpa [nodeClient.Controller, hn] using ⟨hnd, hlt, hin⟩
  | none =>
    have hfresh : st.next ∉ st.client.starters := fun hm => lt_irrefl _ (hlt _ hm)
    simp only [nodeClient.Controller, hn, State.WellFormed]
    refine ⟨?_, ?_, ?_⟩
    · rw [List.nodup_append]
      refine ⟨hnd, List.nodup_singleton _, ?_⟩
      intro a ha hb
      rw [List.mem_singleton] at hb
      exact hfresh (hb ▸ ha)
    · intro a ha
      rw [List.mem_append, List.mem_singleton] at ha
      rcases ha with ha | rfl
      · exact Nat.lt_succ_of_lt (hlt a ha)
      · exact Nat.lt_succ_self _
    · intro k c hk
      by_cases e : k = ns
      · subst e
        rw [Function.update_same] at hk
        cases hk
        simp
      · rw [Function.update_noteq e] at hk
        exact List.mem_append_left _ (hin k c hk)

/-- Every call leaves the client and the allocator as `Controller` on its namespace does. -/
theorem Op_run_client (op : Op) (st : State) :
    (op.run st).client = (nodeClient.Controller { ns := op.ns } st).2.client ∧
      (op.run st).next = (nodeClient.Controller { ns := op.ns } st).2.next := by
  cases op <;> exact ⟨rfl, rfl⟩

/-- Every call keeps the state well formed. -/
theorem Op_run_wellFormed (op : Op) (st : State) (hwf : st.WellFormed) :
    (op.run st).WellFormed := by
  have h := nodeClient_Controller_wellFormed st op.ns hwf
  obtain ⟨hc, hn⟩ := Op_run_client op st
  simp only [State.WellFormed] at h ⊢
  rw [hc, hn]
  exact h

/-- Every call keeps the entries of the map. -/
theorem Op_run_keeps (op : Op) (st : State) (k : String) (c : Nat)
    (h : st.client.nodeControllers k = some c) :
    (op.run st).client.nodeControllers k = some c := by
  rw [(Op_run_client op st).1]
  exact nodeClient_Controller_keeps st op.ns k c h

/-- A sequence of calls keeps the entries of the map. -/
theorem runOps_keeps (ops : List Op) :
    ∀ (st : State) (k : String) (c : Nat), st.client.nodeControllers k = some c →
      (runOps ops st).client.nodeControllers k = some c := by
  induction ops with
  | nil =>
    intro st k c h
    exact h
  | cons op ops ih =>
    intro st k c h
    exact ih (op.run st) k c (Op_run_keeps op st k c h)

/-- A sequence of calls keeps the state well formed. -/
theorem runOps_wellFormed (ops : List Op) :
    ∀ st : State, st.WellFormed → (runOps ops st).WellFormed := by
  induction ops with
  | nil =>
    intro st hwf
    exact hwf
  | cons op ops ih =>
    intro st hwf
    exact ih (op.run st) (Op_run_wellFormed op st hwf)

/-- An `Add` call on a state whose map holds `c` under its namespace registers on `c` and
leaves the client as it is. -/
theorem Op_run_registers (op : Op) (st : State) (c : Nat)
    (h : st.client.nodeControllers op.ns = some c) (reg : Registration)
    (hreg : op.registration = some reg) :
    (op.run st).handlers = Function.update st.handlers c (st.handlers c ++ [reg]) ∧
      (op.run st).client = st.client := by
  have hc := nodeClient_Controller_of_some st op.ns c h
  cases op <;>
    simp only [Op.registration, Option.some.injEq, reduceCtorEq] at hreg <;>
    subst hreg <;>
    simp only [Op.ns] at hc <;>
    simp [Op.run, nodeClient.AddHandler, nodeClient.AddLifecycle,
      nodeClient.AddClusterScopedHandler, nodeClient.AddClusterScopedLifecycle, hc,
      GenericController.AddHandler]

/-- The empty state is well formed. -/
theorem State_empty_wellFormed : State.empty.WellFormed := by
  refine ⟨List.nodup_nil, ?_, ?_⟩
  · intro a ha
    cases ha
  · intro ns c h
    cases h

/-- C10: for every state, the first `Controller` call for a namespace adds the one entry for
that namespace to `nodeControllers` and appends the new controller to `starters`; after any
further calls a `Controller` call for the namespace returns the same controller and changes
nothing, and an `Add` call on the namespace registers on that controller and leaves the
client as it is. On a well-formed state the new controller was not listed before, and
afterwards `starters` lists no controller twice and that controller once; every state reached
from the empty one is well formed and lists no controller twice. -/
theorem nodeClient_Controller_memoised (st : State) (ns : String) (ops : List Op) (op : Op)
    (hop : op.ns = ns) :
    (st.client.nodeControllers ns = none →
        (nodeClient.Controller { ns := ns } st).2.client.nodeControllers =
            Function.update st.client.nodeControllers ns
              (some (nodeClient.Controller { ns := ns } st).1) ∧
          (nodeClient.Controller { ns := ns } st).2.client.starters =
            st.client.starters ++ [(nodeClient.Controller { ns := ns } st).1]) ∧
      nodeClient.Controller { ns := ns }
          (runOps ops (nodeClient.Controller { ns := ns } st).2) =
        ((nodeClient.Controller { ns := ns } st).1,
          runOps ops (nodeClient.Controller { ns := ns } st).2) ∧
      (∀ reg, op.registration = some reg →
        (op.run (runOps ops (nodeClient.Controller { ns := ns } st).2)).handlers =
            Function.update (runOps ops (nodeClient.Controller { ns := ns } st).2).handlers
              (nodeClient.Controller { ns := ns } st).1
              ((runOps ops (nodeClient.Controller { ns := ns } st).2).handlers
                (nodeClient.Controller { ns := ns } st).1 ++ [reg]) ∧
          (op.run (runOps ops (nodeClient.Controller { ns := ns } st).2)).client =
            (runOps ops (nodeClient.Controller { ns := ns } st).2).client) ∧
      (st.WellFormed →
        (st.client.nodeControllers ns = none →
          (nodeClient.Controller { ns := ns } st).1 ∉ st.client.starters) ∧
        (runOps ops (nodeClient.Controller { ns := ns } st).2).client.starters.Nodup ∧
        (runOps ops (nodeClient.Controller { ns := ns } st).2).client.starters.count
          (nodeClient.Controller { ns := ns } st).1 = 1) ∧
      (runOps ops State.empty).WellFormed ∧ (runOps ops State.empty).client.starters.Nodup := by
  have hlook := nodeClient_Controller_lookup st ns
  have hlook2 := runOps_keeps ops _ ns _ hlook
  have hwfe := runOps_wellFormed ops _ State_empty_wellFormed
  refine ⟨?_, ?_, ?_, ?_, hwfe, hwfe.1⟩
  · intro hn
    exact ⟨by simp [nodeClient.Controller, hn], by simp [nodeClient.Controller, hn]⟩
  · exact nodeClient_Controller_of_some _ ns _ hlook2
  · intro reg hreg
    subst hop
    exact Op_run_registers op _ _ hlook2 reg hreg
  · intro hwf
    have hwf2 := runOps_wellFormed ops _ (nodeClient_Controller_wellFormed st ns hwf)
    refine ⟨?_, hwf2.1, List.count_eq_one_of_mem hwf2.1 (hwf2.2.2 ns _ hlook2)⟩
    intro hn
    simp only [nodeClient.Controller, hn]
    exact fun hm => lt_irrefl _ (hwf.2.1 _ hm)

/-- Witness for C10: on the empty state, the namespace "c-1", with a `Controller` call for
"c-2" and an `AddHandler` call on "c-1" in between, and an `AddLifecycle` call on "c-1". -/
theorem nodeClient_Controller_memoised_witness :
    (Op.AddLifecycle "c-1" "cleanup").ns = "c-1" ∧ State.empty.WellFormed ∧
      (nodeClient.Controller { ns := "c-1" } State.empty).2.client.starters =
        State.empty.client.starters ++ [(nodeClient.Controller { ns := "c-1" } State.empty).1] ∧
      nodeClient.Controller { ns := "c-1" }
          (runOps [.Controller "c-2", .AddHandler "c-1" "h1"]
            (nodeClient.Controller { ns := "c-1" } State.empty).2) =
        ((nodeClient.Controller { ns := "c-1" } State.empty).1,
          runOps [.Controller "c-2", .AddHandler "c-1" "h1"]
            (nodeClient.Controller { ns := "c-1" } State.empty).2) ∧
      (runOps [.Controller "c-2", .AddHandler "c-1" "h1"]
          (nodeClient.Controller { ns := "c-1" } State.empty).2).client.starters.count
        (nodeClient.Controller { ns := "c-1" } State.empty).1 = 1 ∧
      ((Op.AddLifecycle "c-1" "cleanup").run
          (runOps [.Controller "c-2", .AddHandler "c-1" "h1"]
            (nodeClient.Controller { ns := "c-1" } State.empty).2)).handlers =
        Function.update
          (runOps [.Controller "c-2", .AddHandler "c-1" "h1"]
            (nodeClient.Controller { ns := "c-1" } State.empty).2).handlers
          (nodeClient.Controller { ns := "c-1" } State.empty).1
          ((runOps [.Controller "c-2", .AddHandler "c-1" "h1"]
              (nodeClient.Controller { ns := "c-1" } State.empty).2).handlers
              (nodeClient.Controller { ns := "c-1" } State.empty).1 ++
            [{ name := "cleanup", cluster := none, lifecycle := some "cleanup" }]) :=
  ⟨rfl, State_empty_wellFormed,
    ((nodeClient_Controller_memoised State.empty "c-1"
      [.Controller "c-2", .AddHandler "c-1" "h1"] (.AddLifecycle "c-1" "cleanup")
      rfl).1 rfl).2,
    (nodeClient_Controller_memoised State.empty "c-1"
      [.Controller "c-2", .AddHandler "c-1" "h1"] (.AddLifecycle "c-1" "cleanup")
      rfl).2.1,
    ((nodeClient_Controller_memoised State.empty "c-1"
      [.Controller "c-2", .AddHandler "c-1" "h1"] (.AddLifecycle "c-1" "cleanup")
      rfl).2.2.2.1 State_empty_wellFormed).2.2,
    ((nodeClient_Controller_memoised State.empty "c-1"
      [.Controller "c-2", .AddHandler "c-1" "h1"] (.AddLifecycle "c-1" "cleanup")
      rfl).2.2.1 { name := "cleanup", cluster := none, lifecycle := some "cleanup" } rfl).1⟩

/-! ## Failed type assertions -/

/-- When the lookup succeeds and finds under the derived key an item that is not a `*Node`,
the type assertion of `Get` panics. -/
theorem nodeLister_Get_panics {Node O E : Type} (GroupName Version : String)
    (l : nodeLister Node O E) (ns name : String) (obj : Iface Node O)
    (h : l.controller.indexer.GetByKey (nodeLister.key ns name) = (obj, true, none))
    (hobj : obj.assert = none) :
    nodeLister.Get GroupName Version l ns name = .panics := by
  simp [nodeLister.Get, h, hobj]

/-- Witness: the store that holds a foreign item under every key. -/
theorem nodeLister_Get_panics_witness :
    foreignLister.controller.indexer.GetByKey (nodeLister.key "c-1" "n1") =
        (Iface.other (), true, none) ∧
      (Iface.other () : Iface String Unit).assert = none ∧
      nodeLister.Get "management.cattle.io" "v3" foreignLister "c-1" "n1" = .panics :=
  ⟨rfl, rfl, nodeLister_Get_panics "management.cattle.io" "v3" foreignLister "c-1" "n1"
    (Iface.other ()) rfl rfl⟩

/-- Witness: the adapter of `retryLifecycle` on the untyped nil object. -/
theorem dynamicSchemaLifecycleAdapter_panics_witness :
    (Iface.nil : Iface (Resource Nat) Unit).assert = none ∧
      (({ lifecycle := retryLifecycle } :
          dynamicSchemaLifecycleAdapter (Resource Nat) String Nat).Create
          (Iface.nil : Iface (Resource Nat) Unit) { state := 0, calls := [] } = .panics ∧
        ({ lifecycle := retryLifecycle } :
          dynamicSchemaLifecycleAdapter (Resource Nat) String Nat).Finalize
          (Iface.nil : Iface (Resource Nat) Unit) { state := 0, calls := [] } = .panics ∧
        ({ lifecycle := retryLifecycle } :
          dynamicSchemaLifecycleAdapter (Resource Nat) String Nat).Updated
          (Iface.nil : Iface (Resource Nat) Unit) { state := 0, calls := [] } = .panics) :=
  ⟨rfl, dynamicSchemaLifecycleAdapter_panics { lifecycle := retryLifecycle } Iface.nil
    { state := 0, calls := [] } rfl⟩

end Rancher
